import Mathlib

/-!
Shallow embedding of the FlowLens event notification & reconciliation
pipeline (api_service/app/services/event_processor.py,
websocket_manager.py, event_poller.py) together with theorems checking
the natural-language specification against the code.

Python dict records are embedded as Lean structures holding exactly the
fields the embedded code reads (a `.get(key, default)` on a possibly
missing key is embedded as a field that carries the value the dict
lookup produces).  Machine effects (storage reads/writes, websocket
sends, the log lines the spec treats as observable) are recorded in an
explicit effect trace.  Python exceptions are embedded as an `Except`
result; `try/finally` becomes explicit sequencing on both branches.
-/

namespace FlowLens

/-- A Python exception, as far as the embedded code distinguishes them:
the arity `TypeError` raised when a call passes more positional
arguments than the callee accepts, and everything else. -/
inductive PyErr where
  | typeError : PyErr
  | other : String → PyErr
deriving Repr, DecidableEq

/-- One entry of a pull-request record's `files_changed` list
(event_processor.py reads `filename`, `status`, `additions`,
`deletions`, `patch` via `.get`). -/
structure FileChange where
  filename : String
  status : String
  additions : Nat
  deletions : Nat
  patch : String
deriving Repr, DecidableEq

/-- The raw `files_changed` column as the record dict carries it: either
already a JSON list, or a JSON string.  For the string case the
embedding carries the outcome of `json.loads`: `some l` when the string
parses to the list `l`, `none` when it raises `JSONDecodeError`. -/
inductive FilesField where
  | flist : List FileChange → FilesField
  | fstr : Option (List FileChange) → FilesField
deriving Repr, DecidableEq

/-- The `isinstance(files_changed, str)` / `json.loads` normalisation at
event_processor.py lines 51-59: a list is kept, a parseable string
becomes its list, an unparseable string becomes `[]`. -/
def parseFilesChanged : FilesField → List FileChange
  | .flist l => l
  | .fstr (some l) => l
  | .fstr none => []

/-- One entry of a pull-request record's `history` list; the processor
only reads its `state` field (`latest_history.get('state')`). -/
structure HistoryEntry where
  state : String
deriving Repr, DecidableEq

/-- A row of the `pull_requests` table as the event processor sees it
(the dict fields read by process_new_pull_request and its helpers,
with `.get` defaults materialised by the ingestion pipeline). -/
structure PRRecord where
  id : String
  repo_id : String
  pr_number : Nat
  title : String
  author : String
  author_avatar : String
  commit_sha : String
  state : String
  merged : Bool
  is_draft : Bool
  additions : Nat
  deletions : Nat
  changed_files : Nat
  files_changed : FilesField
  history : List HistoryEntry
  updated_at : Nat
deriving Repr, DecidableEq

/-- A row of the `pipeline_runs` table as process_new_pipeline and
_determine_pipeline_event_state read it. -/
structure PipelineRecord where
  id : String
  repo_id : String
  pr_number : Nat
  status_pr : String
  status_build : String
  status_approval : String
  status_merge : String
  updated_at : Nat
deriving Repr, DecidableEq

/-- A row of the `insights` table, shaped exactly like the
`insight_record` dict the processor inserts (the storage-assigned `id`
and `created_at` columns are left out; no embedded code reads them —
the poller's view of the tables is embedded separately as `ScanRow`). -/
structure InsightRow where
  repo_id : String
  pr_number : Nat
  commit_sha : String
  author : String
  avatar_url : String
  risk_level : String
  summary : String
  recommendation : String
  processed : Bool
deriving Repr, DecidableEq

/-- The parsed JSON object a successful `ai_service.get_ai_insights`
call returns (already normalised by that function to the three fields
the processor reads). -/
structure AIInsight where
  risk_level : String
  summary : String
  recommendation : String
deriving Repr, DecidableEq

/-- event_processor.py `_determine_pipeline_event_state`: derive the
single human-facing event state from the four pipeline status fields,
checked in the source's order. -/
def _determine_pipeline_event_state (p : PipelineRecord) : String :=
  if p.status_merge = "merged" then "merged"
  else if p.status_merge = "closed" then "closed"
  else if p.status_merge = "failed" then "mergeFailed"
  else if p.status_approval = "approved" then "approved"
  else if p.status_approval = "rejected" then "rejected"
  else if p.status_build = "buildPassed" then "buildPassed"
  else if p.status_build = "buildFailed" then "buildFailed"
  else if p.status_build = "building" then "building"
  else if p.status_pr = "opened" ∨ p.status_pr = "pending" then "opened"
  else "updated"

/-- The workflow states recognised in a PR history entry
(event_processor.py line 192). -/
def workflowStates : List String :=
  ["building", "buildPassed", "buildFailed", "approved", "rejected"]

/-- event_processor.py `_determine_pr_event_state`: prefer the most
recent history entry's state when it is a workflow state, otherwise
fall back to the record-level flags. -/
def _determine_pr_event_state (pr : PRRecord) : String :=
  let fromHistory : Option String :=
    match pr.history.getLast? with
    | some h => if workflowStates.contains h.state then some h.state else none
    | none => none
  match fromHistory with
  | some s => s
  | none =>
      if pr.merged then "merged"
      else if pr.state = "closed" ∧ ¬ pr.merged then "closed"
      else if pr.is_draft then "draft"
      else if pr.state = "open" then "opened"
      else pr.state

/-- The minimal state message `broadcast_pr_state_update` builds
(websocket_manager.py lines 81-85) and `broadcast_json` serialises. -/
structure StateMessage where
  repo_id : String
  pr_number : Nat
  state : String
deriving Repr, DecidableEq

/-- Observable machine effects of the embedded code: storage reads and
writes, the outbound AI call, the processor handing a state delta to
the fan-out, an actual delivery of a message on a websocket, and the
two retry-sweep log lines the spec treats as observable. -/
inductive Effect where
  | selectInsights : String → Nat → Effect
  | selectPR : String → Nat → Effect
  | insertInsight : InsightRow → Effect
  | aiCall : String → Nat → Effect
  | handoff : String → Nat → String → Effect
  | delivered : Nat → StateMessage → Effect
  | logRetrying : String → Effect
  | logGiveUp : String → Effect
deriving Repr, DecidableEq

/-- The three storage tables the embedded components touch. -/
structure Storage where
  pull_requests : List PRRecord
  pipeline_runs : List PipelineRecord
  insights : List InsightRow
deriving Repr, DecidableEq

/-- One value of the module-level `FAILED_INSIGHTS_RETRY` dict. -/
structure RetryEntry where
  attempts : Nat
  pr_record : PRRecord
  last_attempt : Nat
deriving Repr, DecidableEq

/-- The process-wide state the embedded code reads and mutates:
storage, the `PROCESSING_EVENTS` set, the `FAILED_INSIGHTS_RETRY` map
(insertion-ordered, keys unique), the websocket manager's
`active_connections` list, and the chronological effect trace. -/
structure World where
  storage : Storage
  processing_events : List String
  failed_retry : List (String × RetryEntry)
  active_connections : List Nat
  trace : List Effect
deriving Repr, DecidableEq

def addEffect (e : Effect) (w : World) : World :=
  { w with trace := w.trace ++ [e] }

/-- `db_helpers.select("insights", where=(repo_id, pr_number), limit=1)`
over the embedded storage. -/
def selectInsightsWhere (s : Storage) (repo : String) (n : Nat) : List InsightRow :=
  (s.insights.filter (fun r => r.repo_id = repo ∧ r.pr_number = n)).take 1

/-- `db_helpers.insert("insights", row)`: append the row. -/
def insertInsightRow (row : InsightRow) (w : World) : World :=
  let w := addEffect (.insertInsight row) w
  { w with storage := { w.storage with insights := w.storage.insights ++ [row] } }

/-- WebSocketManager.disconnect: remove the connection if present
(removing the first occurrence, as `list.remove` does). -/
def wsDisconnect (c : Nat) (w : World) : World :=
  { w with active_connections := w.active_connections.erase c }

/-- WebSocketManager.broadcast_json over an already-serialisable state
message.  `sendOk c` says whether `c.send_text` succeeds for this
broadcast; a failing send is caught, collected, and the connection is
removed after the loop. -/
def broadcastLoop (sendOk : Nat → Bool) (msg : StateMessage) :
    List Nat → World → List Nat → World × List Nat
  | [], w, dis => (w, dis)
  | c :: rest, w, dis =>
    if sendOk c then broadcastLoop sendOk msg rest (addEffect (.delivered c msg) w) dis
    else broadcastLoop sendOk msg rest w (dis ++ [c])

/-- The clean-up loop after the sends: disconnect every collected
failing connection. -/
def removeDisconnected : List Nat → World → World
  | [], w => w
  | c :: rest, w => removeDisconnected rest (wsDisconnect c w)

def broadcast_json (sendOk : Nat → Bool) (msg : StateMessage) (w : World) : World :=
  if w.active_connections.isEmpty then w
  else
    let (w1, disconnected) := broadcastLoop sendOk msg w.active_connections w []
    removeDisconnected disconnected w1

/-- WebSocketManager.broadcast_pr_state_update, the method as defined
with two positional parameters.  `dbFail` injects a failure of the
`select_one` storage read, `bcastFail` a failure raised out of the
broadcast step; both model branches of the body's `try`. -/
def broadcast_pr_state_update (dbFail bcastFail : Option PyErr)
    (sendOk : Nat → Bool) (repo_id : String) (pr_number : Nat) (w : World) :
    Except PyErr Unit × World :=
  match dbFail with
  | some _ => (.ok (), w)
  | none =>
    let w := addEffect (.selectPR repo_id pr_number) w
    match w.storage.pull_requests.find? (fun r => r.repo_id = repo_id ∧ r.pr_number = pr_number) with
    | none => (.ok (), w)
    | some pr =>
      match bcastFail with
      | some _ => (.ok (), w)
      | none =>
        let msg : StateMessage := { repo_id := repo_id, pr_number := pr_number, state := pr.state }
        (.ok (), broadcast_json sendOk msg w)

/-- The number of positional parameters (after `self`) that
`WebSocketManager.broadcast_pr_state_update` accepts
(websocket_manager.py line 60: `(self, repo_id, pr_number)`). -/
def broadcast_pr_state_update_params : Nat := 2

/-- The event processor's call sites pass THREE positional arguments
`(repo_id, pr_number, event_state)` (event_processor.py lines 87, 97,
102, 132).  Python raises TypeError while binding the arguments, before
the method body runs, so the delta is handed over but nothing is
broadcast. -/
def call_broadcast_pr_state_update3 (repo_id : String) (pr_number : Nat)
    (event_state : String) (w : World) : Except PyErr Unit × World :=
  let w := addEffect (.handoff repo_id pr_number event_state) w
  if 3 ≤ broadcast_pr_state_update_params then
    (.ok (), w)
  else
    (.error .typeError, w)

/-- The row the `insight_record` dict built from an AI response becomes
(event_processor.py lines 311-321; the duplicated dict at lines
266-276 is identical). -/
def mkInsightRow (pr : PRRecord) (ins : AIInsight) : InsightRow :=
  { repo_id := pr.repo_id
    pr_number := pr.pr_number
    commit_sha := pr.commit_sha
    author := pr.author
    avatar_url := pr.author_avatar
    risk_level := ins.risk_level.toLower
    summary := ins.summary
    recommendation := ins.recommendation
    processed := false }

/-- One file of `_reduce_file_data_for_retry`'s per-file reduction. -/
def reduceFile (attempt : Nat) (f : FileChange) : FileChange :=
  if attempt = 1 then
    if f.patch.length > 300 then
      { f with patch := f.patch.take 300 ++ "... [truncated for retry]" }
    else f
  else if attempt = 2 then
    { f with patch := "[File modified: +" ++ toString f.additions ++ "/-" ++ toString f.deletions ++ " changes]" }
  else
    { filename := f.filename
      status := f.status
      additions := f.additions
      deletions := f.deletions
      patch := "[Patch data removed for compatibility]" }

/-- event_processor.py `_reduce_file_data_for_retry`.  Every caller
reaches it with an already-parsed `files_changed` list (`.flist`): the
retry loop only reduces from attempt 1 on, which only happens on the
path that parsed the field first; the `.fstr` case is therefore never
exercised and is carried through unchanged. -/
def _reduce_file_data_for_retry (pr : PRRecord) (attempt : Nat) : PRRecord :=
  match pr.files_changed with
  | .flist [] => pr
  | .flist files => { pr with files_changed := .flist (files.map (reduceFile attempt)) }
  | .fstr _ => pr

/-- The retry loop of `_generate_ai_insight_for_pr_with_retry`:
`attempt` counts from 0, `fuel` is the number of attempts left.  `ai`
is the black-box `ai_service.get_ai_insights` collaborator: `none`
models a malformed / unparseable / failed response (the code treats a
raised exception and a `None` return the same way: next attempt). -/
def aiRetryGo (ai : PRRecord → Option AIInsight) :
    PRRecord → Nat → Nat → World → Bool × World
  | _, _, 0, w => (false, w)
  | rec, attempt, fuel + 1, w =>
    let rec2 := if attempt > 0 then _reduce_file_data_for_retry rec attempt else rec
    let w := addEffect (.aiCall rec2.repo_id rec2.pr_number) w
    match ai rec2 with
    | some ins => (true, insertInsightRow (mkInsightRow rec2 ins) w)
    | none => aiRetryGo ai rec2 (attempt + 1) fuel w

/-- event_processor.py `_generate_ai_insight_for_pr_with_retry`. -/
def _generate_ai_insight_for_pr_with_retry (ai : PRRecord → Option AIInsight)
    (max_retries : Nat) (pr : PRRecord) (w : World) : Bool × World :=
  aiRetryGo ai pr 0 max_retries w

/-- Python's `sub in s` substring test (for a non-empty `sub`). -/
def pyStrContains (sub s : String) : Bool :=
  (s.splitOn sub).length > 1

/-- The risk thresholds of `_generate_fallback_insight`
(event_processor.py lines 401-407). -/
def fallbackRiskLevel (total_changes changed_files : Nat) : String :=
  if total_changes > 200 ∨ changed_files > 10 then "high"
  else if total_changes > 50 ∨ changed_files > 3 then "medium"
  else "low"

/-- The `insight_record` dict `_generate_fallback_insight` builds from
PR metadata (event_processor.py lines 394-431). -/
def fallbackRow (pr : PRRecord) : InsightRow :=
  let total_changes := pr.additions + pr.deletions
  let risk_level := fallbackRiskLevel total_changes pr.changed_files
  let summary := "Pull request modifies " ++ toString pr.changed_files ++ " file(s) with "
    ++ toString pr.additions ++ " additions and " ++ toString pr.deletions ++ " deletions."
  let base := "Review the " ++ toString pr.changed_files
    ++ " modified files carefully. Pay attention to the scope of changes ("
    ++ toString total_changes ++ " total line changes)."
  let recommendation :=
    if pyStrContains "refactor" pr.title.toLower then
      base ++ " This appears to be a refactoring - verify functionality is preserved."
    else if pyStrContains "feature" pr.title.toLower then
      base ++ " This appears to be a new feature - ensure proper testing and documentation."
    else if pyStrContains "fix" pr.title.toLower ∨ pyStrContains "bug" pr.title.toLower then
      base ++ " This appears to be a bug fix - verify the fix addresses the root cause."
    else base
  { repo_id := pr.repo_id
    pr_number := pr.pr_number
    commit_sha := pr.commit_sha
    author := pr.author
    avatar_url := pr.author_avatar
    risk_level := risk_level
    summary := summary
    recommendation := recommendation
    processed := false }

/-- event_processor.py `_generate_fallback_insight`: the deterministic
heuristic insight built from PR metadata; always persists exactly one
row and returns True (its `except` branch fires only if an embedded
operation raises, which none does here). -/
def _generate_fallback_insight (pr : PRRecord) (w : World) : Bool × World :=
  (true, insertInsightRow (fallbackRow pr) w)

/-- Lookup in the `FAILED_INSIGHTS_RETRY` assoc list. -/
def retryLookup (k : String) (m : List (String × RetryEntry)) : Option RetryEntry :=
  (m.find? (fun p => p.1 = k)).map (fun p => p.2)

/-- In-place mutation of one entry of `FAILED_INSIGHTS_RETRY`. -/
def retryUpdate (k : String) (f : RetryEntry → RetryEntry)
    (m : List (String × RetryEntry)) : List (String × RetryEntry) :=
  m.map (fun p => if p.1 = k then (p.1, f p.2) else p)

/-- The `f"{repo_id}:{pr_number}"` retry key. -/
def retryKey (pr : PRRecord) : String :=
  pr.repo_id ++ ":" ++ toString pr.pr_number

/-- event_processor.py `_schedule_insight_retry`: create the entry with
`attempts = 0` if absent, then unconditionally increment `attempts`. -/
def _schedule_insight_retry (now : Nat) (pr : PRRecord) (w : World) : World :=
  let key := retryKey pr
  let m :=
    match retryLookup key w.failed_retry with
    | none => w.failed_retry ++ [(key, { attempts := 0, pr_record := pr, last_attempt := now })]
    | some _ => w.failed_retry
  { w with failed_retry := retryUpdate key (fun e => { e with attempts := e.attempts + 1 }) m }

/-- event_processor.py `process_new_pull_request`.  `ai` is the AI
collaborator, `now` the current clock reading used by
`_schedule_insight_retry`.  The lock check, the `try` body and the
`finally` release are embedded explicitly; the `except` branch logs and
re-raises, so an error result of the body is passed through after the
lock release. -/
def process_new_pull_request (ai : PRRecord → Option AIInsight) (now : Nat)
    (pr : PRRecord) (w : World) : Except PyErr Unit × World :=
  let record_id := pr.id
  if w.processing_events.contains record_id then (.ok (), w)
  else
    let w := { w with processing_events := w.processing_events ++ [record_id] }
    let body : Except PyErr Unit × World :=
      let files_changed := parseFilesChanged pr.files_changed
      let existing_insights := selectInsightsWhere w.storage pr.repo_id pr.pr_number
      let w := addEffect (.selectInsights pr.repo_id pr.pr_number) w
      let should_attempt_insights := existing_insights.isEmpty
      if should_attempt_insights then
        let (insight_success, w) :=
          if ¬ files_changed.isEmpty then
            _generate_ai_insight_for_pr_with_retry ai 3
              { pr with files_changed := .flist files_changed } w
          else
            _generate_fallback_insight pr w
        if insight_success then
          let event_state := _determine_pr_event_state pr
          call_broadcast_pr_state_update3 pr.repo_id pr.pr_number event_state w
        else
          (.ok (), _schedule_insight_retry now pr w)
      else if ¬ existing_insights.isEmpty then
        let event_state := _determine_pr_event_state pr
        call_broadcast_pr_state_update3 pr.repo_id pr.pr_number event_state w
      else
        let event_state := _determine_pr_event_state pr
        call_broadcast_pr_state_update3 pr.repo_id pr.pr_number event_state w
    let (res, w1) := body
    (res, { w1 with processing_events := w1.processing_events.erase record_id })

/-- event_processor.py `process_new_pipeline`. -/
def process_new_pipeline (p : PipelineRecord) (w : World) : Except PyErr Unit × World :=
  if w.processing_events.contains p.id then (.ok (), w)
  else
    let w := { w with processing_events := w.processing_events ++ [p.id] }
    let (res, w1) :=
      let event_state := _determine_pipeline_event_state p
      call_broadcast_pr_state_update3 p.repo_id p.pr_number event_state w
    (res, { w1 with processing_events := w1.processing_events.erase p.id })

/-- The fields of an insight record that `process_new_insight` reads. -/
structure InsightEvent where
  id : String
  repo_id : String
  pr_number : Nat
deriving Repr, DecidableEq

/-- event_processor.py `process_new_insight`: the body only logs —
insights trigger no broadcast and no storage write. -/
def process_new_insight (ins : InsightEvent) (w : World) : Except PyErr Unit × World :=
  if w.processing_events.contains ins.id then (.ok (), w)
  else
    let w := { w with processing_events := w.processing_events ++ [ins.id] }
    (.ok (), { w with processing_events := w.processing_events.erase ins.id })

/-- event_processor.py `process_failed_insight_retries`: the background
retry sweep.  It iterates the entries in insertion order; an entry with
`attempts >= 5` is logged as given up and marked completed without any
retry; an entry inside the 300 s cooldown is skipped; otherwise the
retry is logged and run (heuristic path once `attempts >= 3`, one AI
attempt before that); completed keys are deleted after the loop.
`sweepStep` is the body of that loop for one entry. -/
def sweepStep (ai : PRRecord → Option AIInsight) (now : Nat)
    (acc : World × List String) (kv : String × RetryEntry) : World × List String :=
  let (w, completed) := acc
  let key := kv.1
  let e := kv.2
  if e.attempts ≥ 5 then
    (addEffect (.logGiveUp key) w, completed ++ [key])
  else if now - e.last_attempt < 300 then
    (w, completed)
  else
    let w := addEffect (.logRetrying key) w
    let (success, w) :=
      if e.attempts ≥ 3 then _generate_fallback_insight e.pr_record w
      else _generate_ai_insight_for_pr_with_retry ai 1 e.pr_record w
    if success then (w, completed ++ [key])
    else
      let m := retryUpdate key
        (fun e => { e with attempts := e.attempts + 1, last_attempt := now })
        w.failed_retry
      ({ w with failed_retry := m }, completed)

def process_failed_insight_retries (ai : PRRecord → Option AIInsight) (now : Nat)
    (w : World) : World :=
  if w.failed_retry.isEmpty then w
  else
    let (w, completed) := w.failed_retry.foldl (sweepStep ai now) (w, [])
    { w with failed_retry := completed.foldl (fun m k => m.filter (fun p => p.1 ≠ k)) w.failed_retry }

/-- A table row as `poll_for_events` reads it: the record id, the PR
number it logs, and the timestamp column it compares (`updated_at` for
pull requests and pipelines, `created_at` for insights). -/
structure ScanRow where
  id : String
  pr_number : Nat
  ts : Nat
deriving Repr, DecidableEq

def insertDescByTs (r : ScanRow) : List ScanRow → List ScanRow
  | [] => [r]
  | x :: xs => if r.ts ≥ x.ts then r :: x :: xs else x :: insertDescByTs r xs

/-- `ORDER BY <ts> DESC` over a table. -/
def sortDescByTs (rows : List ScanRow) : List ScanRow :=
  rows.foldr insertDescByTs []

/-- One table's section of a `poll_for_events` cycle (event_poller.py
lines 37-60, repeated verbatim for the other two tables): select the 5
most recent rows; on the first cycle only initialise the in-memory
timestamp; afterwards submit every selected row strictly newer than the
remembered timestamp, then advance it.  Returns the submitted
`(event_type, record_id)` pairs and the new timestamp. -/
def pollTable (event_type : String) (rows : List ScanRow) (lastTs : Option Nat) :
    List (String × String) × Option Nat :=
  let new_rows := (sortDescByTs rows).take 5
  match new_rows with
  | [] => ([], lastTs)
  | newest :: _ =>
    match lastTs with
    | none => ([], some newest.ts)
    | some t =>
      ((new_rows.filter (fun r => r.ts > t)).map (fun r => (event_type, r.id)),
       some newest.ts)

/-- The poller's whole in-memory state (event_poller.py lines 31-33);
a fresh start has all three timestamps `None`. -/
structure PollerState where
  last_pr_timestamp : Option Nat
  last_pipeline_timestamp : Option Nat
  last_insight_timestamp : Option Nat
deriving Repr, DecidableEq

def freshPollerState : PollerState :=
  { last_pr_timestamp := none, last_pipeline_timestamp := none, last_insight_timestamp := none }

/-- One full cycle of the `poll_for_events` loop over the three tables:
the ids it submits to `process_notification_by_type_and_id`, and the
poller state it carries to the next cycle. -/
def poll_cycle (prs pipelines insights : List ScanRow) (ps : PollerState) :
    List (String × String) × PollerState :=
  let (s1, t1) := pollTable "pr_event" prs ps.last_pr_timestamp
  let (s2, t2) := pollTable "pipeline_event" pipelines ps.last_pipeline_timestamp
  let (s3, t3) := pollTable "insight_event" insights ps.last_insight_timestamp
  (s1 ++ s2 ++ s3,
   { last_pr_timestamp := t1, last_pipeline_timestamp := t2, last_insight_timestamp := t3 })

/-- A canonical world used only to state the world-independent Boolean
outcome of the AI retry loop. -/
def emptyWorld : World :=
  { storage := { pull_requests := [], pipeline_runs := [], insights := [] },
    processing_events := [], failed_retry := [], active_connections := [], trace := [] }

/-- Whether the 3-attempt AI enrichment of this record succeeds (this
depends only on `ai` and the record, not on the threaded world). -/
def aiInsightSucceeds (ai : PRRecord → Option AIInsight) (pr : PRRecord) : Bool :=
  (_generate_ai_insight_for_pr_with_retry ai 3 pr emptyWorld).1

/-! ## Example records used by the claim theorems -/

/-- A pipeline row with `status_merge = "merged"` and
`status_build = "buildFailed"`. -/
def exC3merged : PipelineRecord :=
  { id := "p1", repo_id := "r1", pr_number := 1, status_pr := "opened",
    status_build := "buildFailed", status_approval := "pending",
    status_merge := "merged", updated_at := 0 }

/-- A pipeline row with all four status fields `pending` except
`status_build = "building"`. -/
def exC3building : PipelineRecord :=
  { id := "p2", repo_id := "r1", pr_number := 2, status_pr := "pending",
    status_build := "building", status_approval := "pending",
    status_merge := "pending", updated_at := 0 }

/-! ## Claim theorems -/

/-- C3: the derived pipeline event state follows the strict priority
order merged, closed, mergeFailed, approved, rejected, buildPassed,
buildFailed, building, opened, else updated (each state is produced
exactly when its trigger holds and every higher-priority trigger
fails); in particular `status_merge="merged"` with
`status_build="buildFailed"` derives "merged", and all-pending except
`status_build="building"` derives "building". -/
theorem C3_pipeline_event_state_priority :
    (∀ p : PipelineRecord, p.status_merge = "merged" →
      _determine_pipeline_event_state p = "merged") ∧
    (∀ p : PipelineRecord, p.status_merge ≠ "merged" → p.status_merge = "closed" →
      _determine_pipeline_event_state p = "closed") ∧
    (∀ p : PipelineRecord, p.status_merge ≠ "merged" → p.status_merge ≠ "closed" →
      p.status_merge = "failed" →
      _determine_pipeline_event_state p = "mergeFailed") ∧
    (∀ p : PipelineRecord, p.status_merge ≠ "merged" → p.status_merge ≠ "closed" →
      p.status_merge ≠ "failed" → p.status_approval = "approved" →
      _determine_pipeline_event_state p = "approved") ∧
    (∀ p : PipelineRecord, p.status_merge ≠ "merged" → p.status_merge ≠ "closed" →
      p.status_merge ≠ "failed" → p.status_approval ≠ "approved" →
      p.status_approval = "rejected" →
      _determine_pipeline_event_state p = "rejected") ∧
    (∀ p : PipelineRecord, p.status_merge ≠ "merged" → p.status_merge ≠ "closed" →
      p.status_merge ≠ "failed" → p.status_approval ≠ "approved" →
      p.status_approval ≠ "rejected" → p.status_build = "buildPassed" →
      _determine_pipeline_event_state p = "buildPassed") ∧
    (∀ p : PipelineRecord, p.status_merge ≠ "merged" → p.status_merge ≠ "closed" →
      p.status_merge ≠ "failed" → p.status_approval ≠ "approved" →
      p.status_approval ≠ "rejected" → p.status_build ≠ "buildPassed" →
      p.status_build = "buildFailed" →
      _determine_pipeline_event_state p = "buildFailed") ∧
    (∀ p : PipelineRecord, p.status_merge ≠ "merged" → p.status_merge ≠ "closed" →
      p.status_merge ≠ "failed" → p.status_approval ≠ "approved" →
      p.status_approval ≠ "rejected" → p.status_build ≠ "buildPassed" →
      p.status_build ≠ "buildFailed" → p.status_build = "building" →
      _determine_pipeline_event_state p = "building") ∧
    (∀ p : PipelineRecord, p.status_merge ≠ "merged" → p.status_merge ≠ "closed" →
      p.status_merge ≠ "failed" → p.status_approval ≠ "approved" →
      p.status_approval ≠ "rejected" → p.status_build ≠ "buildPassed" →
      p.status_build ≠ "buildFailed" → p.status_build ≠ "building" →
      (p.status_pr = "opened" ∨ p.status_pr = "pending") →
      _determine_pipeline_event_state p = "opened") ∧
    (∀ p : PipelineRecord, p.status_merge ≠ "merged" → p.status_merge ≠ "closed" →
      p.status_merge ≠ "failed" → p.status_approval ≠ "approved" →
      p.status_approval ≠ "rejected" → p.status_build ≠ "buildPassed" →
      p.status_build ≠ "buildFailed" → p.status_build ≠ "building" →
      p.status_pr ≠ "opened" → p.status_pr ≠ "pending" →
      _determine_pipeline_event_state p = "updated") ∧
    _determine_pipeline_event_state exC3merged = "merged" ∧
    _determine_pipeline_event_state exC3building = "building" := by
  refine ⟨?_, ?_, ?_, ?_, ?_, ?_, ?_, ?_, ?_, ?_, ?_, ?_⟩ <;>
    first
    | rfl
    | (intro p
       intros
       simp only [_determine_pipeline_event_state]
       simp_all)

/-- Witness for C3: the theorem applied at the two concrete example
records from the claim. -/
theorem C3_pipeline_event_state_priority_witness :
    _determine_pipeline_event_state exC3merged = "merged" ∧
    _determine_pipeline_event_state exC3building = "building" :=
  ⟨C3_pipeline_event_state_priority.1 exC3merged rfl,
   (C3_pipeline_event_state_priority.2.2.2.2.2.2.2.1) exC3building
     (by decide) (by decide) (by decide) (by decide) (by decide) (by decide)
     (by decide) rfl⟩

/-- C10: `broadcast_pr_state_update` (the method, applied to a
`repo_id` and a `pr_number`) never propagates an exception: whatever
failure the storage read or the broadcast step raises inside its body
is caught, and the function returns normally. -/
theorem C10_broadcast_pr_state_update_no_raise
    (dbFail bcastFail : Option PyErr) (sendOk : Nat → Bool)
    (repo_id : String) (pr_number : Nat) (w : World) :
    (broadcast_pr_state_update dbFail bcastFail sendOk repo_id pr_number w).1 = .ok () := by
  unfold broadcast_pr_state_update
  cases dbFail with
  | some e => rfl
  | none =>
    dsimp only
    split
    · rfl
    · cases bcastFail <;> rfl

/-! ### Lemmas about the fan-out loop -/

theorem broadcastLoop_spec (sendOk : Nat → Bool) (msg : StateMessage) :
    ∀ (cs : List Nat) (w : World) (dis : List Nat),
      broadcastLoop sendOk msg cs w dis =
        ({ w with trace := w.trace ++ (cs.filter sendOk).map (fun c => Effect.delivered c msg) },
         dis ++ cs.filter (fun c => ! sendOk c)) := by
  intro cs
  induction cs with
  | nil => intro w dis; simp [broadcastLoop]
  | cons c rest ih =>
    intro w dis
    by_cases h : sendOk c = true
    · simp [broadcastLoop, h, ih, addEffect, List.filter_cons]
    · simp only [Bool.not_eq_true] at h
      simp [broadcastLoop, h, ih, List.filter_cons]

theorem removeDisconnected_eq :
    ∀ (ds : List Nat) (w : World),
      removeDisconnected ds w =
        { w with active_connections := ds.foldl (fun acc c => acc.erase c) w.active_connections } := by
  intro ds
  induction ds with
  | nil => intro w; simp [removeDisconnected]
  | cons c rest ih => intro w; simp [removeDisconnected, wsDisconnect, ih]

theorem foldl_erase_of_not_mem_head {x : Nat} :
    ∀ (ds l : List Nat), (∀ d ∈ ds, d ≠ x) →
      ds.foldl (fun acc c => acc.erase c) (x :: l) =
        x :: ds.foldl (fun acc c => acc.erase c) l := by
  intro ds
  induction ds with
  | nil => intro l _; rfl
  | cons d rest ih =>
    intro l hne
    have hdx : d ≠ x := hne d (by simp)
    have : (x :: l).erase d = x :: l.erase d := by
      rw [List.erase_cons_tail]
      simp [hdx.symm]
    simp only [List.foldl_cons, this]
    exact ih (l.erase d) (fun d' hd' => hne d' (by simp [hd']))

theorem foldl_erase_filter (p : Nat → Bool) :
    ∀ (l : List Nat),
      (l.filter (fun c => ! p c)).foldl (fun acc c => acc.erase c) l = l.filter p := by
  intro l
  induction l with
  | nil => rfl
  | cons x xs ih =>
    by_cases hp : p x = true
    · have hf : (x :: xs).filter (fun c => ! p c) = xs.filter (fun c => ! p c) := by
        simp [List.filter_cons, hp]
      rw [hf, foldl_erase_of_not_mem_head (xs.filter (fun c => ! p c)) xs ?hne, ih]
      · simp [List.filter_cons, hp]
      · intro d hd
        have := List.of_mem_filter hd
        simp only [Bool.not_eq_true'] at this
        intro hdx
        rw [hdx] at this
        rw [this] at hp
        exact Bool.false_ne_true hp
    · have hpx : p x = false := by simpa using hp
      have hf : (x :: xs).filter (fun c => ! p c) = x :: xs.filter (fun c => ! p c) := by
        simp [List.filter_cons, hpx]
      rw [hf]
      simp only [List.foldl_cons, List.erase_cons_head]
      rw [ih]
      simp [List.filter_cons, hpx]

theorem broadcast_json_spec (sendOk : Nat → Bool) (msg : StateMessage) (w : World) :
    broadcast_json sendOk msg w =
      { w with
        trace := w.trace ++ (w.active_connections.filter sendOk).map (fun c => Effect.delivered c msg),
        active_connections := w.active_connections.filter sendOk } := by
  unfold broadcast_json
  by_cases h : w.active_connections.isEmpty
  · rw [if_pos h]
    rw [List.isEmpty_iff] at h
    cases w with
    | mk s pe fr ac tr => simp_all
  · rw [if_neg h]
    rw [broadcastLoop_spec]
    simp only [List.nil_append]
    rw [removeDisconnected_eq]
    simp [foldl_erase_filter]

/-- C7: a send failure on one subscriber does not prevent delivery to
the others — after `broadcast_json`, the delivered messages are exactly
one per subscriber whose send succeeded, every successful subscriber
received the message, and every subscriber whose send failed has been
removed from the active set. -/
theorem C7_broadcast_isolation (sendOk : Nat → Bool) (msg : StateMessage) (w : World) :
    (broadcast_json sendOk msg w).trace
        = w.trace ++ (w.active_connections.filter sendOk).map (fun c => Effect.delivered c msg) ∧
    (broadcast_json sendOk msg w).active_connections
        = w.active_connections.filter sendOk ∧
    (∀ c, c ∈ w.active_connections → sendOk c = true →
        Effect.delivered c msg ∈ (broadcast_json sendOk msg w).trace) ∧
    (∀ c, sendOk c = false → c ∉ (broadcast_json sendOk msg w).active_connections) := by
  have hspec := broadcast_json_spec sendOk msg w
  refine ⟨by rw [hspec], by rw [hspec], ?_, ?_⟩
  · intro c hc hok
    rw [hspec]
    simp only [List.mem_append, List.mem_map]
    right
    exact ⟨c, List.mem_filter.mpr ⟨hc, hok⟩, rfl⟩
  · intro c hfail
    rw [hspec]
    simp only [List.mem_filter]
    rintro ⟨-, hok⟩
    rw [hfail] at hok
    exact Bool.false_ne_true hok

/-- Witness for C7: three subscribers 1, 2, 3 where the send to 2
fails — 1 and 3 still receive the message and 2 is removed. -/
theorem C7_broadcast_isolation_witness :
    Effect.delivered 1 { repo_id := "r1", pr_number := 7, state := "open" } ∈
      (broadcast_json (fun c => c ≠ 2) { repo_id := "r1", pr_number := 7, state := "open" }
        { storage := { pull_requests := [], pipeline_runs := [], insights := [] },
          processing_events := [], failed_retry := [], active_connections := [1, 2, 3],
          trace := [] }).trace ∧
    Effect.delivered 3 { repo_id := "r1", pr_number := 7, state := "open" } ∈
      (broadcast_json (fun c => c ≠ 2) { repo_id := "r1", pr_number := 7, state := "open" }
        { storage := { pull_requests := [], pipeline_runs := [], insights := [] },
          processing_events := [], failed_retry := [], active_connections := [1, 2, 3],
          trace := [] }).trace ∧
    2 ∉ (broadcast_json (fun c => c ≠ 2) { repo_id := "r1", pr_number := 7, state := "open" }
        { storage := { pull_requests := [], pipeline_runs := [], insights := [] },
          processing_events := [], failed_retry := [], active_connections := [1, 2, 3],
          trace := [] }).active_connections :=
  ⟨(C7_broadcast_isolation (fun c => c ≠ 2) _ _).2.2.1 1 (by decide) (by decide),
   (C7_broadcast_isolation (fun c => c ≠ 2) _ _).2.2.1 3 (by decide) (by decide),
   (C7_broadcast_isolation (fun c => c ≠ 2) _ _).2.2.2 2 (by decide)⟩

/-! ### Frame lemmas about the processor's helpers -/

theorem addEffect_processing_events (e : Effect) (w : World) :
    (addEffect e w).processing_events = w.processing_events := rfl

theorem addEffect_storage (e : Effect) (w : World) :
    (addEffect e w).storage = w.storage := rfl

theorem reduce_preserves (pr : PRRecord) (a : Nat) :
    (_reduce_file_data_for_retry pr a).repo_id = pr.repo_id ∧
    (_reduce_file_data_for_retry pr a).pr_number = pr.pr_number := by
  unfold _reduce_file_data_for_retry
  split <;> simp

/-- Full frame/effect characterisation of the AI retry loop: it leaves
the lock set, the retry map, the connections and the other two tables
alone; on success it appends exactly one insight row carrying the
record's `(repo_id, pr_number)` and `processed = false`, on failure it
leaves the insights table unchanged. -/
theorem aiRetryGo_spec (ai : PRRecord → Option AIInsight) :
    ∀ (fuel : Nat) (rec : PRRecord) (attempt : Nat) (w : World),
      (aiRetryGo ai rec attempt fuel w).2.processing_events = w.processing_events ∧
      (aiRetryGo ai rec attempt fuel w).2.failed_retry = w.failed_retry ∧
      (aiRetryGo ai rec attempt fuel w).2.active_connections = w.active_connections ∧
      (aiRetryGo ai rec attempt fuel w).2.storage.pull_requests = w.storage.pull_requests ∧
      (aiRetryGo ai rec attempt fuel w).2.storage.pipeline_runs = w.storage.pipeline_runs ∧
      (if (aiRetryGo ai rec attempt fuel w).1 then
          ∃ row : InsightRow,
            (aiRetryGo ai rec attempt fuel w).2.storage.insights = w.storage.insights ++ [row] ∧
            row.repo_id = rec.repo_id ∧ row.pr_number = rec.pr_number ∧ row.processed = false
        else (aiRetryGo ai rec attempt fuel w).2.storage.insights = w.storage.insights) := by
  intro fuel
  induction fuel with
  | zero => intro rec attempt w; simp [aiRetryGo]
  | succ n ih =>
    intro rec attempt w
    have hpres := reduce_preserves rec attempt
    set rec2 := if attempt > 0 then _reduce_file_data_for_retry rec attempt else rec with hrec2
    have hrepo : rec2.repo_id = rec.repo_id := by
      rw [hrec2]; split <;> simp [hpres.1]
    have hpr : rec2.pr_number = rec.pr_number := by
      rw [hrec2]; split <;> simp [hpres.2]
    cases hai : ai rec2 with
    | some ins =>
      simp only [aiRetryGo, ← hrec2, hai]
      refine ⟨rfl, rfl, rfl, rfl, rfl, ?_⟩
      simp only [if_pos]
      exact ⟨mkInsightRow rec2 ins, rfl, hrepo, hpr, rfl⟩
    | none =>
      have := ih rec2 (attempt + 1) (addEffect (.aiCall rec2.repo_id rec2.pr_number) w)
      simp only [aiRetryGo, ← hrec2, hai]
      simp only [addEffect_processing_events, addEffect_storage] at this
      refine ⟨this.1, this.2.1, ?_, this.2.2.2.1, this.2.2.2.2.1, ?_⟩
      · rw [this.2.2.1]; rfl
      · have h6 := this.2.2.2.2.2
        split at h6
        · next hb =>
          obtain ⟨row, hrow, h1, h2, h3⟩ := h6
          simp only [if_pos hb]
          exact ⟨row, hrow, by rw [h1, hrepo], by rw [h2, hpr], h3⟩
        · next hb => simp only [if_neg hb]; exact h6

theorem fallback_spec (pr : PRRecord) (w : World) :
    (_generate_fallback_insight pr w).1 = true ∧
    (_generate_fallback_insight pr w).2.processing_events = w.processing_events ∧
    (_generate_fallback_insight pr w).2.failed_retry = w.failed_retry ∧
    (_generate_fallback_insight pr w).2.active_connections = w.active_connections ∧
    (_generate_fallback_insight pr w).2.storage.pull_requests = w.storage.pull_requests ∧
    (_generate_fallback_insight pr w).2.storage.pipeline_runs = w.storage.pipeline_runs ∧
    (_generate_fallback_insight pr w).2.storage.insights = w.storage.insights ++ [fallbackRow pr] := by
  simp [_generate_fallback_insight, insertInsightRow, addEffect]

theorem fallbackRow_keys (pr : PRRecord) :
    (fallbackRow pr).repo_id = pr.repo_id ∧ (fallbackRow pr).pr_number = pr.pr_number ∧
    (fallbackRow pr).processed = false := by
  simp [fallbackRow]

theorem schedule_spec (now : Nat) (pr : PRRecord) (w : World) :
    (_schedule_insight_retry now pr w).storage = w.storage ∧
    (_schedule_insight_retry now pr w).processing_events = w.processing_events ∧
    (_schedule_insight_retry now pr w).active_connections = w.active_connections ∧
    (_schedule_insight_retry now pr w).trace = w.trace := by
  exact ⟨rfl, rfl, rfl, rfl⟩

theorem call3_eq (r : String) (n : Nat) (s : String) (w : World) :
    call_broadcast_pr_state_update3 r n s w =
      (.error .typeError, addEffect (.handoff r n s) w) := by
  simp [call_broadcast_pr_state_update3, broadcast_pr_state_update_params]

theorem erase_append_self {a : String} {l : List String} (h : a ∉ l) :
    (l ++ [a]).erase a = l := by
  rw [List.erase_append_right _ h]
  simp

theorem contains_false_not_mem {a : String} {l : List String}
    (h : l.contains a = false) : a ∉ l := by
  simp_all

/-- The Boolean outcome of the AI retry loop does not depend on the
world it threads (only the inserts do). -/
theorem aiRetryGo_fst_indep (ai : PRRecord → Option AIInsight) :
    ∀ (fuel : Nat) (rec : PRRecord) (attempt : Nat) (w w' : World),
      (aiRetryGo ai rec attempt fuel w).1 = (aiRetryGo ai rec attempt fuel w').1 := by
  intro fuel
  induction fuel with
  | zero => intro rec attempt w w'; rfl
  | succ n ih =>
    intro rec attempt w w'
    simp only [aiRetryGo]
    cases ai (if attempt > 0 then _reduce_file_data_for_retry rec attempt else rec) with
    | some ins => rfl
    | none => exact ih _ _ _ _

theorem select_append_matching {l : List InsightRow} {row : InsightRow}
    {pulls : List PRRecord} {pipes : List PipelineRecord} {repo : String} {n : Nat}
    (h1 : row.repo_id = repo) (h2 : row.pr_number = n) :
    selectInsightsWhere ⟨pulls, pipes, l ++ [row]⟩ repo n ≠ [] := by
  subst h1
  subst h2
  unfold selectInsightsWhere
  rw [List.filter_append]
  have hrow : [row].filter
      (fun r => decide (r.repo_id = row.repo_id ∧ r.pr_number = row.pr_number)) = [row] := by
    simp
  rw [hrow]
  cases l.filter
      (fun r => decide (r.repo_id = row.repo_id ∧ r.pr_number = row.pr_number)) <;> simp

theorem retryLookup_update (k : String) (f : RetryEntry → RetryEntry) :
    ∀ m : List (String × RetryEntry),
      retryLookup k (retryUpdate k f m) = (retryLookup k m).map f := by
  intro m
  induction m with
  | nil => rfl
  | cons p rest ih =>
    by_cases h : p.1 = k
    · simp [retryUpdate, retryLookup, h, List.find?_cons]
    · have hb : (decide (p.1 = k)) = false := by simp [h]
      simp only [retryUpdate, List.map_cons, if_neg h]
      simp only [retryLookup, List.find?_cons, hb]
      simpa [retryLookup, retryUpdate] using ih

theorem find?_key_append_none {k : String} (e : RetryEntry) :
    ∀ m : List (String × RetryEntry),
      m.find? (fun p => decide (p.1 = k)) = none →
      (m ++ [(k, e)]).find? (fun p => decide (p.1 = k)) = some (k, e) := by
  intro m
  induction m with
  | nil => intro _; simp
  | cons p rest ih =>
    intro h
    cases hb : (decide (p.1 = k)) with
    | true =>
      simp only [List.find?_cons, hb] at h
      exact absurd h (by simp)
    | false =>
      simp only [List.find?_cons, hb] at h
      rw [List.cons_append]
      simp only [List.find?_cons, hb]
      exact ih h

theorem retryLookup_append_none {k : String} {m : List (String × RetryEntry)}
    (h : retryLookup k m = none) (e : RetryEntry) :
    retryLookup k (m ++ [(k, e)]) = some e := by
  have hf : m.find? (fun p => decide (p.1 = k)) = none := by
    cases hfind : m.find? (fun p => decide (p.1 = k)) with
    | none => rfl
    | some p =>
      unfold retryLookup at h
      rw [hfind] at h
      simp at h
  unfold retryLookup
  rw [find?_key_append_none e m hf]
  rfl

/-- `_schedule_insight_retry` registers the record: afterwards the key
is present with `attempts ≥ 1`, and the stored record snapshot is the
scheduled record on first registration. -/
theorem schedule_registers (now : Nat) (pr : PRRecord) (w : World) :
    ∃ e : RetryEntry,
      retryLookup (retryKey pr) (_schedule_insight_retry now pr w).failed_retry = some e ∧
      1 ≤ e.attempts := by
  unfold _schedule_insight_retry
  cases h : retryLookup (retryKey pr) w.failed_retry with
  | none =>
    simp only [h]
    refine ⟨{ attempts := 1, pr_record := pr, last_attempt := now }, ?_, le_refl 1⟩
    rw [retryLookup_update, retryLookup_append_none h]
    rfl
  | some e =>
    simp only [h]
    refine ⟨{ e with attempts := e.attempts + 1 }, ?_, by simp⟩
    rw [retryLookup_update, h]
    rfl

/-! ### Branch characterisations of `process_new_pull_request` -/

/-- Locked: the call is a pure no-op. -/
theorem process_pr_locked (ai : PRRecord → Option AIInsight) (now : Nat)
    (pr : PRRecord) (w : World) (h : w.processing_events.contains pr.id = true) :
    process_new_pull_request ai now pr w = (.ok (), w) := by
  unfold process_new_pull_request
  rw [if_pos h]

theorem lock_roundtrip {w : World} {i : String}
    (h : w.processing_events.contains i = false) :
    (w.processing_events ++ [i]).erase i = w.processing_events :=
  erase_append_self (contains_false_not_mem h)

/-- Not locked, an insight already exists: only the (failing) broadcast
call happens — storage, lock set and retry map are all as before. -/
theorem process_pr_existing (ai : PRRecord → Option AIInsight) (now : Nat)
    (pr : PRRecord) (w : World)
    (h : w.processing_events.contains pr.id = false)
    (hex : (selectInsightsWhere w.storage pr.repo_id pr.pr_number).isEmpty = false) :
    process_new_pull_request ai now pr w =
      (.error .typeError,
       { w with trace := w.trace
          ++ [.selectInsights pr.repo_id pr.pr_number,
              .handoff pr.repo_id pr.pr_number (_determine_pr_event_state pr)] }) := by
  unfold process_new_pull_request
  simp only [h, Bool.false_eq_true, if_false]
  rw [hex]
  simp [call3_eq, addEffect, lock_roundtrip h]

theorem storage_ext {s t : Storage} (h1 : s.pull_requests = t.pull_requests)
    (h2 : s.pipeline_runs = t.pipeline_runs) (h3 : s.insights = t.insights) : s = t := by
  cases s
  cases t
  simp_all

theorem aiInsightSucceeds_eq (ai : PRRecord → Option AIInsight) (pr : PRRecord) (w : World) :
    (_generate_ai_insight_for_pr_with_retry ai 3 pr w).1 = aiInsightSucceeds ai pr := by
  unfold aiInsightSucceeds _generate_ai_insight_for_pr_with_retry
  exact aiRetryGo_fst_indep ai 3 pr 0 w emptyWorld

/-- Not locked, no existing insight, non-empty file data: the AI retry
loop runs.  On success exactly one matching insight row is appended and
the (failing) broadcast is attempted; on failure nothing is persisted,
the record is registered for background retry, and the call returns
normally. -/
theorem process_pr_new_files (ai : PRRecord → Option AIInsight) (now : Nat)
    (pr : PRRecord) (w : World)
    (h : w.processing_events.contains pr.id = false)
    (hex : (selectInsightsWhere w.storage pr.repo_id pr.pr_number).isEmpty = true)
    (hfiles : (parseFilesChanged pr.files_changed).isEmpty = false) :
    (process_new_pull_request ai now pr w).2.processing_events = w.processing_events ∧
    (process_new_pull_request ai now pr w).2.storage.pull_requests = w.storage.pull_requests ∧
    (process_new_pull_request ai now pr w).2.storage.pipeline_runs = w.storage.pipeline_runs ∧
    (if aiInsightSucceeds ai { pr with files_changed := .flist (parseFilesChanged pr.files_changed) } then
      (∃ row : InsightRow,
        (process_new_pull_request ai now pr w).2.storage.insights = w.storage.insights ++ [row] ∧
        row.repo_id = pr.repo_id ∧ row.pr_number = pr.pr_number ∧ row.processed = false) ∧
      (process_new_pull_request ai now pr w).2.failed_retry = w.failed_retry ∧
      (process_new_pull_request ai now pr w).1 = .error .typeError
    else
      (process_new_pull_request ai now pr w).2.storage = w.storage ∧
      (process_new_pull_request ai now pr w).1 = .ok () ∧
      (∃ e : RetryEntry,
        retryLookup (retryKey pr) (process_new_pull_request ai now pr w).2.failed_retry = some e ∧
        1 ≤ e.attempts)) := by
  unfold process_new_pull_request
  simp only [h, Bool.false_eq_true, if_false]
  rw [hex]
  rw [hfiles]
  simp only [eq_self_iff_true, if_true, Bool.false_eq_true, not_false_iff, if_pos]
  rcases hAI : _generate_ai_insight_for_pr_with_retry ai 3
      { pr with files_changed := .flist (parseFilesChanged pr.files_changed) }
      (addEffect (.selectInsights pr.repo_id pr.pr_number)
        { w with processing_events := w.processing_events ++ [pr.id] }) with ⟨b, w2⟩
  have hb : aiInsightSucceeds ai
      { pr with files_changed := .flist (parseFilesChanged pr.files_changed) } = b := by
    rw [← aiInsightSucceeds_eq ai _ (addEffect (.selectInsights pr.repo_id pr.pr_number)
        { w with processing_events := w.processing_events ++ [pr.id] }), hAI]
  have hspec := aiRetryGo_spec ai 3
      { pr with files_changed := .flist (parseFilesChanged pr.files_changed) } 0
      (addEffect (.selectInsights pr.repo_id pr.pr_number)
        { w with processing_events := w.processing_events ++ [pr.id] })
  unfold _generate_ai_insight_for_pr_with_retry at hAI
  rw [hAI] at hspec
  simp only [addEffect] at hspec
  dsimp only
  rw [hb]
  cases b with
  | true =>
    simp only [eq_self_iff_true, if_true]
    simp only [call3_eq]
    dsimp only [addEffect]
    refine ⟨?_, hspec.2.2.2.1, hspec.2.2.2.2.1, ?_, hspec.2.1, by trivial⟩
    · rw [hspec.1]
      exact lock_roundtrip h
    · have h6 := hspec.2.2.2.2.2
      rw [if_pos rfl] at h6
      obtain ⟨row, hrow, h1, h2, h3⟩ := h6
      exact ⟨row, hrow, by simpa using h1, by simpa using h2, h3⟩
  | false =>
    simp only [Bool.false_eq_true, if_false]
    have h6 := hspec.2.2.2.2.2
    rw [if_neg (by simp)] at h6
    have hst : w2.storage = w.storage :=
      storage_ext hspec.2.2.2.1 hspec.2.2.2.2.1 h6
    have hsch := schedule_spec now pr w2
    have hreg := schedule_registers now pr w2
    refine ⟨?_, ?_, ?_, ?_, by trivial, hreg⟩
    · rw [hsch.2.1, hspec.1]
      exact lock_roundtrip h
    · rw [hsch.1, hst]
    · rw [hsch.1, hst]
    · rw [hsch.1, hst]

/-- Not locked, no existing insight, empty file data: the heuristic
fallback insight is persisted and the (failing) broadcast attempted. -/
theorem process_pr_new_nofiles (ai : PRRecord → Option AIInsight) (now : Nat)
    (pr : PRRecord) (w : World)
    (h : w.processing_events.contains pr.id = false)
    (hex : (selectInsightsWhere w.storage pr.repo_id pr.pr_number).isEmpty = true)
    (hfiles : (parseFilesChanged pr.files_changed).isEmpty = true) :
    process_new_pull_request ai now pr w =
      (.error .typeError,
       { w with
          storage := { w.storage with insights := w.storage.insights ++ [fallbackRow pr] },
          trace := w.trace
            ++ [.selectInsights pr.repo_id pr.pr_number,
                .insertInsight (fallbackRow pr),
                .handoff pr.repo_id pr.pr_number (_determine_pr_event_state pr)] }) := by
  unfold process_new_pull_request
  simp only [h, Bool.false_eq_true, if_false]
  rw [hex]
  rw [hfiles]
  simp only [eq_self_iff_true, if_true, not_true, if_neg, if_false]
  simp [_generate_fallback_insight, insertInsightRow, call3_eq, addEffect, lock_roundtrip h]

theorem isEmpty_false_of_ne_nil {α : Type} {l : List α} (h : l ≠ []) :
    l.isEmpty = false := by
  cases l
  · exact absurd rfl h
  · rfl

/-- An unlocked invocation restores the lock set on exit, in every
branch of the body. -/
theorem process_pr_unlocked_pe (ai : PRRecord → Option AIInsight) (now : Nat)
    (pr : PRRecord) (w : World)
    (h : w.processing_events.contains pr.id = false) :
    (process_new_pull_request ai now pr w).2.processing_events = w.processing_events := by
  by_cases hex : (selectInsightsWhere w.storage pr.repo_id pr.pr_number).isEmpty = true
  · by_cases hf : (parseFilesChanged pr.files_changed).isEmpty = true
    · rw [process_pr_new_nofiles ai now pr w h hex hf]
    · exact (process_pr_new_files ai now pr w h hex (by simpa using hf)).1
  · rw [process_pr_existing ai now pr w h (by simpa using hex)]

/-- C1: a process invocation that finds the record id already in the
ProcessingLock set returns immediately, with the world (storage, retry
map, connections, trace — hence no storage read/write and no
broadcast) completely unchanged; an invocation that does enter
processing has the id removed from the lock set on exit, whether the
body returned normally or raised. -/
theorem C1_processing_lock (ai : PRRecord → Option AIInsight) (now : Nat)
    (pr : PRRecord) (p : PipelineRecord) (ins : InsightEvent) (w : World) :
    (w.processing_events.contains pr.id = true →
      process_new_pull_request ai now pr w = (.ok (), w)) ∧
    (w.processing_events.contains p.id = true →
      process_new_pipeline p w = (.ok (), w)) ∧
    (w.processing_events.contains ins.id = true →
      process_new_insight ins w = (.ok (), w)) ∧
    (w.processing_events.contains pr.id = false →
      (process_new_pull_request ai now pr w).2.processing_events = w.processing_events) ∧
    (w.processing_events.contains p.id = false →
      (process_new_pipeline p w).2.processing_events = w.processing_events) ∧
    (w.processing_events.contains ins.id = false →
      (process_new_insight ins w).2.processing_events = w.processing_events) := by
  refine ⟨?_, ?_, ?_, ?_, ?_, ?_⟩
  · intro h
    exact process_pr_locked ai now pr w h
  · intro h
    unfold process_new_pipeline
    rw [if_pos h]
  · intro h
    unfold process_new_insight
    rw [if_pos h]
  · intro h
    exact process_pr_unlocked_pe ai now pr w h
  · intro h
    unfold process_new_pipeline
    simp only [h, Bool.false_eq_true, if_false]
    simp only [call3_eq, addEffect]
    exact lock_roundtrip h
  · intro h
    unfold process_new_insight
    simp only [h, Bool.false_eq_true, if_false]
    exact lock_roundtrip h

/-- Witness for C1: a locked pull-request id is a pure no-op, and an
unlocked invocation restores the lock set on exit. -/
theorem C1_processing_lock_witness :
    process_new_pull_request (fun _ => none) 0
      { id := "pr-1", repo_id := "r1", pr_number := 7, title := "Fix bug", author := "a",
        author_avatar := "av", commit_sha := "c", state := "open", merged := false,
        is_draft := false, additions := 150, deletions := 100, changed_files := 12,
        files_changed := .flist [⟨"f.py", "modified", 150, 100, "xx"⟩], history := [],
        updated_at := 10 }
      { emptyWorld with processing_events := ["pr-1"] } =
      (.ok (), { emptyWorld with processing_events := ["pr-1"] }) ∧
    (process_new_pull_request (fun _ => none) 0
      { id := "pr-1", repo_id := "r1", pr_number := 7, title := "Fix bug", author := "a",
        author_avatar := "av", commit_sha := "c", state := "open", merged := false,
        is_draft := false, additions := 150, deletions := 100, changed_files := 12,
        files_changed := .flist [⟨"f.py", "modified", 150, 100, "xx"⟩], history := [],
        updated_at := 10 }
      emptyWorld).2.processing_events = emptyWorld.processing_events :=
  ⟨(C1_processing_lock (fun _ => none) 0 _
      { id := "p", repo_id := "r", pr_number := 0, status_pr := "pending",
        status_build := "pending", status_approval := "pending", status_merge := "pending",
        updated_at := 0 }
      { id := "i", repo_id := "r", pr_number := 0 }
      { emptyWorld with processing_events := ["pr-1"] }).1 (by decide),
   (C1_processing_lock (fun _ => none) 0 _
      { id := "p", repo_id := "r", pr_number := 0, status_pr := "pending",
        status_build := "pending", status_approval := "pending", status_merge := "pending",
        updated_at := 0 }
      { id := "i", repo_id := "r", pr_number := 0 }
      emptyWorld).2.2.2.1 (by decide)⟩

/-- C2: reprocessing is idempotent on persisted state — if an insight
row already exists for the record's `(repo_id, pr_number)`, processing
changes storage not at all (in particular it inserts no duplicate
insight); any single processing appends at most one insight row and
only when none existed before; and processing the record a second time
in sequence leaves exactly the persisted state the first processing
produced. -/
theorem C2_reprocess_idempotent (ai : PRRecord → Option AIInsight) (now now2 : Nat)
    (pr : PRRecord) (w : World) :
    ((selectInsightsWhere w.storage pr.repo_id pr.pr_number).isEmpty = false →
      (process_new_pull_request ai now pr w).2.storage = w.storage) ∧
    ((process_new_pull_request ai now pr w).2.storage.insights = w.storage.insights ∨
      ((selectInsightsWhere w.storage pr.repo_id pr.pr_number).isEmpty = true ∧
       ∃ row : InsightRow,
         (process_new_pull_request ai now pr w).2.storage.insights = w.storage.insights ++ [row] ∧
         row.repo_id = pr.repo_id ∧ row.pr_number = pr.pr_number)) ∧
    ((process_new_pull_request ai now2 pr (process_new_pull_request ai now pr w).2).2.storage
      = (process_new_pull_request ai now pr w).2.storage) := by
  by_cases hlock : w.processing_events.contains pr.id = true
  · rw [process_pr_locked ai now pr w hlock]
    rw [process_pr_locked ai now2 pr w hlock]
    exact ⟨fun _ => rfl, Or.inl rfl, rfl⟩
  · have h : w.processing_events.contains pr.id = false := by simpa using hlock
    have hpe : (process_new_pull_request ai now pr w).2.processing_events
        = w.processing_events :=
      process_pr_unlocked_pe ai now pr w h
    have h2 : (process_new_pull_request ai now pr w).2.processing_events.contains pr.id
        = false := by rw [hpe]; exact h
    by_cases hex : (selectInsightsWhere w.storage pr.repo_id pr.pr_number).isEmpty = true
    · refine ⟨fun hco => absurd hex (by simp [hco]), ?_, ?_⟩
      · by_cases hf : (parseFilesChanged pr.files_changed).isEmpty = true
        · rw [process_pr_new_nofiles ai now pr w h hex hf]
          exact Or.inr ⟨hex, fallbackRow pr, rfl,
            (fallbackRow_keys pr).1, (fallbackRow_keys pr).2.1⟩
        · have hspec := process_pr_new_files ai now pr w h hex (by simpa using hf)
          have h4 := hspec.2.2.2
          by_cases hai : aiInsightSucceeds ai
              { pr with files_changed := .flist (parseFilesChanged pr.files_changed) } = true
          · rw [if_pos hai] at h4
            obtain ⟨⟨row, hrow, hr1, hr2, _⟩, -, -⟩ := h4
            exact Or.inr ⟨hex, row, hrow, hr1, hr2⟩
          · rw [if_neg hai] at h4
            exact Or.inl (by rw [h4.1])
      · by_cases hf : (parseFilesChanged pr.files_changed).isEmpty = true
        · rw [process_pr_new_nofiles ai now pr w h hex hf]
          dsimp only
          have hrun2 := process_pr_existing ai now2 pr
            { w with
              storage := { w.storage with insights := w.storage.insights ++ [fallbackRow pr] },
              trace := w.trace
                ++ [.selectInsights pr.repo_id pr.pr_number,
                    .insertInsight (fallbackRow pr),
                    .handoff pr.repo_id pr.pr_number (_determine_pr_event_state pr)] }
            h
            (isEmpty_false_of_ne_nil
              (select_append_matching (fallbackRow_keys pr).1 (fallbackRow_keys pr).2.1))
          rw [hrun2]
        · have hspec := process_pr_new_files ai now pr w h hex (by simpa using hf)
          have h4 := hspec.2.2.2
          by_cases hai : aiInsightSucceeds ai
              { pr with files_changed := .flist (parseFilesChanged pr.files_changed) } = true
          · rw [if_pos hai] at h4
            obtain ⟨⟨row, hrow, hr1, hr2, -⟩, -, -⟩ := h4
            have hx : (selectInsightsWhere
                (process_new_pull_request ai now pr w).2.storage
                pr.repo_id pr.pr_number).isEmpty = false := by
              have hs := storage_ext hspec.2.1 hspec.2.2.1 hrow
                (t := { pull_requests := w.storage.pull_requests,
                        pipeline_runs := w.storage.pipeline_runs,
                        insights := w.storage.insights ++ [row] })
              rw [hs]
              exact isEmpty_false_of_ne_nil (select_append_matching hr1 hr2)
            rw [(process_pr_existing ai now2 pr _ h2 hx)]
          · rw [if_neg hai] at h4
            have hst := h4.1
            have hx : (selectInsightsWhere
                (process_new_pull_request ai now pr w).2.storage
                pr.repo_id pr.pr_number).isEmpty = true := by rw [hst]; exact hex
            have hspec2 := process_pr_new_files ai now2 pr
              (process_new_pull_request ai now pr w).2 h2 hx (by simpa using hf)
            have h42 := hspec2.2.2.2
            rw [if_neg hai] at h42
            rw [h42.1, hst]
    · have hx : (selectInsightsWhere w.storage pr.repo_id pr.pr_number).isEmpty = false := by
        simpa using hex
      have hfix := process_pr_existing ai now pr w h hx
      refine ⟨fun _ => by rw [hfix], Or.inl (by rw [hfix]), ?_⟩
      have hx2 : (selectInsightsWhere
          (process_new_pull_request ai now pr w).2.storage
          pr.repo_id pr.pr_number).isEmpty = false := by
        rw [hfix]
        exact hx
      rw [(process_pr_existing ai now2 pr _ h2 hx2)]

/-- Witness for C2: a record whose `(repo_id, pr_number)` already has
an insight row — processing it changes storage not at all. -/
theorem C2_reprocess_idempotent_witness :
    (process_new_pull_request (fun _ => none) 0
      { id := "pr-2", repo_id := "r1", pr_number := 2, title := "t", author := "a",
        author_avatar := "av", commit_sha := "c", state := "open", merged := false,
        is_draft := false, additions := 1, deletions := 1, changed_files := 1,
        files_changed := .flist [], history := [], updated_at := 3 }
      { emptyWorld with storage :=
          { pull_requests := [], pipeline_runs := [],
            insights :=
              [{ repo_id := "r1", pr_number := 2, commit_sha := "c", author := "a",
                 avatar_url := "av", risk_level := "low", summary := "s",
                 recommendation := "r", processed := false }] } }).2.storage
      = ({ emptyWorld with storage :=
          { pull_requests := [], pipeline_runs := [],
            insights :=
              [{ repo_id := "r1", pr_number := 2, commit_sha := "c", author := "a",
                 avatar_url := "av", risk_level := "low", summary := "s",
                 recommendation := "r", processed := false }] } } : World).storage :=
  (C2_reprocess_idempotent (fun _ => none) 0 0
    { id := "pr-2", repo_id := "r1", pr_number := 2, title := "t", author := "a",
      author_avatar := "av", commit_sha := "c", state := "open", merged := false,
      is_draft := false, additions := 1, deletions := 1, changed_files := 1,
      files_changed := .flist [], history := [], updated_at := 3 }
    { emptyWorld with storage :=
        { pull_requests := [], pipeline_runs := [],
          insights :=
            [{ repo_id := "r1", pr_number := 2, commit_sha := "c", author := "a",
               avatar_url := "av", risk_level := "low", summary := "s",
               recommendation := "r", processed := false }] } }).1 (by decide)

/-- If the AI collaborator fails (returns `none`) on every record, the
retry loop never succeeds. -/
theorem aiRetryGo_none (ai : PRRecord → Option AIInsight) (hai : ∀ r, ai r = none) :
    ∀ (fuel : Nat) (rec : PRRecord) (attempt : Nat) (w : World),
      (aiRetryGo ai rec attempt fuel w).1 = false := by
  intro fuel
  induction fuel with
  | zero => intro rec attempt w; rfl
  | succ n ih =>
    intro rec attempt w
    simp only [aiRetryGo, hai]
    exact ih _ _ _

/-- C4 counterexample: a new pull request with 250 changed lines across
12 files, non-empty file-change data, no existing insight, and an AI
collaborator that fails on every attempt — after processing, NO insight
has been persisted at all (the heuristic fallback did not run), and the
record was only registered for background retry. -/
theorem C4_counterexample :
    (process_new_pull_request (fun _ => none) 0
      { id := "pr-4", repo_id := "r1", pr_number := 4, title := "Fix bug", author := "a",
        author_avatar := "av", commit_sha := "c", state := "open", merged := false,
        is_draft := false, additions := 150, deletions := 100, changed_files := 12,
        files_changed := .flist [⟨"f.py", "modified", 150, 100, "xx"⟩], history := [],
        updated_at := 10 }
      emptyWorld).2.storage.insights = [] := by
  rfl

/-- C4 as amended: when every AI attempt fails, a new PR *with*
file-change data gets no insight persisted in that invocation and is
registered in the retry state instead; the heuristic insight (risk
thresholds >200 lines or >10 files ⇒ high, >50 lines or >3 files ⇒
medium, else low) is persisted immediately only for a record with
*empty* file-change data, and for a registered record once the
background sweep retries it with attempts ≥ 3. -/
theorem C4_heuristic_fallback_amended :
    (∀ (ai : PRRecord → Option AIInsight) (now : Nat) (pr : PRRecord) (w : World),
      (∀ r, ai r = none) →
      w.processing_events.contains pr.id = false →
      (selectInsightsWhere w.storage pr.repo_id pr.pr_number).isEmpty = true →
      (parseFilesChanged pr.files_changed).isEmpty = false →
      (process_new_pull_request ai now pr w).2.storage.insights = w.storage.insights ∧
      (∃ e : RetryEntry,
        retryLookup (retryKey pr) (process_new_pull_request ai now pr w).2.failed_retry = some e ∧
        1 ≤ e.attempts)) ∧
    (∀ (ai : PRRecord → Option AIInsight) (now : Nat) (pr : PRRecord) (w : World),
      w.processing_events.contains pr.id = false →
      (selectInsightsWhere w.storage pr.repo_id pr.pr_number).isEmpty = true →
      (parseFilesChanged pr.files_changed).isEmpty = true →
      (process_new_pull_request ai now pr w).2.storage.insights
        = w.storage.insights ++ [fallbackRow pr]) ∧
    (∀ pr : PRRecord, (fallbackRow pr).risk_level
        = fallbackRiskLevel (pr.additions + pr.deletions) pr.changed_files) ∧
    (∀ total files : Nat,
      (200 < total ∨ 10 < files → fallbackRiskLevel total files = "high") ∧
      (total ≤ 200 → files ≤ 10 → (50 < total ∨ 3 < files) →
        fallbackRiskLevel total files = "medium") ∧
      (total ≤ 50 → files ≤ 3 → fallbackRiskLevel total files = "low")) ∧
    (∀ (ai : PRRecord → Option AIInsight) (now : Nat) (w : World) (k : String) (e : RetryEntry),
      w.failed_retry = [(k, e)] → 3 ≤ e.attempts → e.attempts < 5 →
      300 ≤ now - e.last_attempt →
      (process_failed_insight_retries ai now w).storage.insights
        = w.storage.insights ++ [fallbackRow e.pr_record]) := by
  refine ⟨?_, ?_, ?_, ?_, ?_⟩
  · intro ai now pr w hai h hex hfiles
    have hspec := process_pr_new_files ai now pr w h hex hfiles
    have hfail : aiInsightSucceeds ai
        { pr with files_changed := .flist (parseFilesChanged pr.files_changed) } = false := by
      unfold aiInsightSucceeds _generate_ai_insight_for_pr_with_retry
      exact aiRetryGo_none ai hai 3 _ 0 emptyWorld
    have h4 := hspec.2.2.2
    rw [hfail] at h4
    simp only [Bool.false_eq_true, if_false] at h4
    exact ⟨by rw [h4.1], h4.2.2⟩
  · intro ai now pr w h hex hfiles
    rw [process_pr_new_nofiles ai now pr w h hex hfiles]
  · intro pr
    rfl
  · intro total files
    refine ⟨?_, ?_, ?_⟩
    · intro h
      unfold fallbackRiskLevel
      rw [if_pos h]
    · intro h1 h2 h3
      unfold fallbackRiskLevel
      rw [if_neg (by omega), if_pos h3]
    · intro h1 h2
      unfold fallbackRiskLevel
      rw [if_neg (by omega), if_neg (by omega)]
  · intro ai now w k e hret h3 h5 hcool
    unfold process_failed_insight_retries
    rw [hret]
    simp only [List.isEmpty_cons, Bool.false_eq_true, if_false]
    simp only [List.foldl_cons, List.foldl_nil]
    unfold sweepStep
    dsimp only
    rw [if_neg (by omega), if_neg (by omega), if_pos h3]
    simp [_generate_fallback_insight, insertInsightRow, addEffect]

/-- Witness for C4 as amended: the failing-AI run on a file-bearing PR
leaves the insights table empty and registers the retry entry; the
fallback on 250 changed lines across 12 files yields risk "high"; the
sweep with attempts = 3 persists the heuristic row. -/
theorem C4_heuristic_fallback_amended_witness :
    ((process_new_pull_request (fun _ => none) 0
      { id := "pr-4", repo_id := "r1", pr_number := 4, title := "Fix bug", author := "a",
        author_avatar := "av", commit_sha := "c", state := "open", merged := false,
        is_draft := false, additions := 150, deletions := 100, changed_files := 12,
        files_changed := .flist [⟨"f.py", "modified", 150, 100, "xx"⟩], history := [],
        updated_at := 10 }
      emptyWorld).2.storage.insights = emptyWorld.storage.insights ∧
     (∃ e : RetryEntry,
        retryLookup "r1:4"
          (process_new_pull_request (fun _ => none) 0
            { id := "pr-4", repo_id := "r1", pr_number := 4, title := "Fix bug", author := "a",
              author_avatar := "av", commit_sha := "c", state := "open", merged := false,
              is_draft := false, additions := 150, deletions := 100, changed_files := 12,
              files_changed := .flist [⟨"f.py", "modified", 150, 100, "xx"⟩], history := [],
              updated_at := 10 }
            emptyWorld).2.failed_retry = some e ∧
        1 ≤ e.attempts)) ∧
    fallbackRiskLevel 250 12 = "high" :=
  ⟨C4_heuristic_fallback_amended.1 (fun _ => none) 0 _ emptyWorld
      (fun _ => rfl) (by decide) (by decide) (by decide),
   (C4_heuristic_fallback_amended.2.2.2.1 250 12).1 (by omega)⟩

/-- C5 (code bug, evaluated at the failing input): processing a
pipeline record whose `status_merge` is "merged" computes the derived
state "merged" and hands the delta `(repo_id, pr_number, state)` to the
fan-out, but the call raises TypeError — `broadcast_pr_state_update`
accepts only two positional arguments — so nothing is delivered to the
connected subscriber and the processor re-raises. -/
theorem C5_delta_never_delivered :
    (process_new_pipeline
      { id := "p5", repo_id := "r1", pr_number := 7, status_pr := "opened",
        status_build := "buildFailed", status_approval := "pending",
        status_merge := "merged", updated_at := 0 }
      { emptyWorld with active_connections := [1] }).1 = .error .typeError ∧
    (process_new_pipeline
      { id := "p5", repo_id := "r1", pr_number := 7, status_pr := "opened",
        status_build := "buildFailed", status_approval := "pending",
        status_merge := "merged", updated_at := 0 }
      { emptyWorld with active_connections := [1] }).2.trace
      = [.handoff "r1" 7 "merged"] ∧
    (∀ eff ∈ (process_new_pipeline
      { id := "p5", repo_id := "r1", pr_number := 7, status_pr := "opened",
        status_build := "buildFailed", status_approval := "pending",
        status_merge := "merged", updated_at := 0 }
      { emptyWorld with active_connections := [1] }).2.trace,
      ∀ (c : Nat) (m : StateMessage), eff ≠ .delivered c m) ∧
    ¬ 3 ≤ broadcast_pr_state_update_params := by
  refine ⟨rfl, rfl, ?_, by decide⟩
  intro eff heff c m
  have heq : eff = Effect.handoff "r1" 7 "merged" := List.mem_singleton.mp heff
  rw [heq]
  intro hcontra
  exact Effect.noConfusion hcontra

/-- C6 counterexample: one unsettled pull-request row is in storage,
the poller starts fresh (all in-memory timestamps `None`) — the first
poll cycle submits nothing at all, merely initialising its in-memory
high-water-marks. -/
theorem C6_counterexample :
    (poll_cycle [{ id := "pr-1", pr_number := 7, ts := 10 }] [] [] freshPollerState).1 = [] := by
  rfl

/-- C6 as amended: the poller decides what to submit from its in-memory
per-table high-water-marks, not from a processed column: a fresh cycle
submits nothing for any storage contents, and once a high-water-mark
`t` is held, the submitted records are exactly those among the 5 most
recently updated rows whose timestamp strictly exceeds `t`. -/
theorem C6_poller_highwater_amended :
    (∀ prs pipelines insights : List ScanRow,
      (poll_cycle prs pipelines insights freshPollerState).1 = []) ∧
    (∀ (et : String) (rows : List ScanRow) (t : Nat) (s : String × String),
      s ∈ (pollTable et rows (some t)).1 →
      ∃ r : ScanRow, r ∈ (sortDescByTs rows).take 5 ∧ t < r.ts ∧ s = (et, r.id)) ∧
    (∀ (et : String) (rows : List ScanRow) (t : Nat) (r : ScanRow),
      r ∈ (sortDescByTs rows).take 5 → t < r.ts →
      (et, r.id) ∈ (pollTable et rows (some t)).1) := by
  refine ⟨?_, ?_, ?_⟩
  · intro prs pipelines insights
    have h1 : (pollTable "pr_event" prs none).1 = [] := by
      unfold pollTable
      cases (sortDescByTs prs).take 5 <;> rfl
    have h2 : (pollTable "pipeline_event" pipelines none).1 = [] := by
      unfold pollTable
      cases (sortDescByTs pipelines).take 5 <;> rfl
    have h3 : (pollTable "insight_event" insights none).1 = [] := by
      unfold pollTable
      cases (sortDescByTs insights).take 5 <;> rfl
    unfold poll_cycle
    unfold freshPollerState
    dsimp only
    rw [h1, h2, h3]
    rfl
  · intro et rows t s hs
    cases hn : (sortDescByTs rows).take 5 with
    | nil =>
      unfold pollTable at hs
      rw [hn] at hs
      simp at hs
    | cons newest rest =>
      unfold pollTable at hs
      rw [hn] at hs
      dsimp only at hs
      simp only [List.mem_map, List.mem_filter] at hs
      obtain ⟨r, ⟨hr, hts⟩, hs⟩ := hs
      exact ⟨r, hr, by simpa using hts, hs.symm⟩
  · intro et rows t r hr hts
    unfold pollTable
    cases hn : (sortDescByTs rows).take 5 with
    | nil =>
      rw [hn] at hr
      simp at hr
    | cons newest rest =>
      rw [hn] at hr
      simp only [List.mem_map, List.mem_filter]
      exact ⟨r, ⟨hr, by simpa using hts⟩, rfl⟩

/-- Witness for C6 as amended: with a held high-water-mark 10 and two
rows of timestamps 20 and 5, exactly the newer row is submitted. -/
theorem C6_poller_highwater_amended_witness :
    ("pr_event", "a") ∈
      (pollTable "pr_event"
        [{ id := "a", pr_number := 1, ts := 20 }, { id := "b", pr_number := 2, ts := 5 }]
        (some 10)).1 ∧
    (poll_cycle [{ id := "b", pr_number := 2, ts := 5 }] [] [] freshPollerState).1 = [] :=
  ⟨C6_poller_highwater_amended.2.2 "pr_event"
      [{ id := "a", pr_number := 1, ts := 20 }, { id := "b", pr_number := 2, ts := 5 }]
      10 { id := "a", pr_number := 1, ts := 20 } (by decide) (by decide),
   C6_poller_highwater_amended.1 [{ id := "b", pr_number := 2, ts := 5 }] [] []⟩

/-- C8 counterexample: a pull-request record that the processor
processes successfully (result `ok`) while storage afterwards is
byte-for-byte what it was before — no flag was flipped, the record was
not marked settled. -/
theorem C8_counterexample :
    (process_new_pull_request (fun _ => none) 0
      { id := "pr-8", repo_id := "r1", pr_number := 8, title := "t", author := "a",
        author_avatar := "av", commit_sha := "c", state := "open", merged := false,
        is_draft := false, additions := 1, deletions := 1, changed_files := 1,
        files_changed := .flist [⟨"f.py", "modified", 1, 1, "p"⟩], history := [],
        updated_at := 3 }
      { emptyWorld with
          storage :=
            { pull_requests :=
                [{ id := "pr-8", repo_id := "r1", pr_number := 8, title := "t", author := "a",
                   author_avatar := "av", commit_sha := "c", state := "open", merged := false,
                   is_draft := false, additions := 1, deletions := 1, changed_files := 1,
                   files_changed := .flist [⟨"f.py", "modified", 1, 1, "p"⟩], history := [],
                   updated_at := 3 }],
              pipeline_runs := [], insights := [] } }).1 = .ok () ∧
    (process_new_pull_request (fun _ => none) 0
      { id := "pr-8", repo_id := "r1", pr_number := 8, title := "t", author := "a",
        author_avatar := "av", commit_sha := "c", state := "open", merged := false,
        is_draft := false, additions := 1, deletions := 1, changed_files := 1,
        files_changed := .flist [⟨"f.py", "modified", 1, 1, "p"⟩], history := [],
        updated_at := 3 }
      { emptyWorld with
          storage :=
            { pull_requests :=
                [{ id := "pr-8", repo_id := "r1", pr_number := 8, title := "t", author := "a",
                   author_avatar := "av", commit_sha := "c", state := "open", merged := false,
                   is_draft := false, additions := 1, deletions := 1, changed_files := 1,
                   files_changed := .flist [⟨"f.py", "modified", 1, 1, "p"⟩], history := [],
                   updated_at := 3 }],
              pipeline_runs := [], insights := [] } }).2.storage
      = { pull_requests :=
          [{ id := "pr-8", repo_id := "r1", pr_number := 8, title := "t", author := "a",
             author_avatar := "av", commit_sha := "c", state := "open", merged := false,
             is_draft := false, additions := 1, deletions := 1, changed_files := 1,
             files_changed := .flist [⟨"f.py", "modified", 1, 1, "p"⟩], history := [],
             updated_at := 3 }],
          pipeline_runs := [], insights := [] } := by
  exact ⟨rfl, rfl⟩

/-- C8 as amended: the Event Processor never updates or deletes any
record — the pull_requests and pipeline_runs tables are untouched by
all three process functions, the insights table only ever grows by
appended rows (each created with `processed = false`), and no record's
columns are modified. -/
theorem C8_frame_amended (ai : PRRecord → Option AIInsight) (now : Nat)
    (pr : PRRecord) (p : PipelineRecord) (ins : InsightEvent) (w : World) :
    (process_new_pull_request ai now pr w).2.storage.pull_requests
        = w.storage.pull_requests ∧
    (process_new_pull_request ai now pr w).2.storage.pipeline_runs
        = w.storage.pipeline_runs ∧
    (∃ added : List InsightRow,
      (process_new_pull_request ai now pr w).2.storage.insights
          = w.storage.insights ++ added ∧
      ∀ r ∈ added, r.processed = false) ∧
    (process_new_pipeline p w).2.storage = w.storage ∧
    (process_new_insight ins w).2.storage = w.storage := by
  have hpipe : (process_new_pipeline p w).2.storage = w.storage := by
    unfold process_new_pipeline
    by_cases h : w.processing_events.contains p.id = true
    · rw [if_pos h]
    · simp only [h, Bool.false_eq_true, if_false]
      simp only [call3_eq, addEffect]
  have hins : (process_new_insight ins w).2.storage = w.storage := by
    unfold process_new_insight
    by_cases h : w.processing_events.contains ins.id = true
    · rw [if_pos h]
    · simp only [h, Bool.false_eq_true, if_false]
  have hPR : (process_new_pull_request ai now pr w).2.storage.pull_requests
        = w.storage.pull_requests ∧
      (process_new_pull_request ai now pr w).2.storage.pipeline_runs
        = w.storage.pipeline_runs ∧
      (∃ added : List InsightRow,
        (process_new_pull_request ai now pr w).2.storage.insights
            = w.storage.insights ++ added ∧
        ∀ r ∈ added, r.processed = false) := by
    by_cases hlock : w.processing_events.contains pr.id = true
    · rw [process_pr_locked ai now pr w hlock]
      exact ⟨rfl, rfl, [], by simp, by simp⟩
    · have h : w.processing_events.contains pr.id = false := by simpa using hlock
      by_cases hex : (selectInsightsWhere w.storage pr.repo_id pr.pr_number).isEmpty = true
      · by_cases hf : (parseFilesChanged pr.files_changed).isEmpty = true
        · rw [process_pr_new_nofiles ai now pr w h hex hf]
          refine ⟨rfl, rfl, [fallbackRow pr], rfl, ?_⟩
          intro r hr
          rw [List.mem_singleton] at hr
          rw [hr]
          exact (fallbackRow_keys pr).2.2
        · have hspec := process_pr_new_files ai now pr w h hex (by simpa using hf)
          refine ⟨hspec.2.1, hspec.2.2.1, ?_⟩
          have h4 := hspec.2.2.2
          by_cases hai : aiInsightSucceeds ai
              { pr with files_changed := .flist (parseFilesChanged pr.files_changed) } = true
          · rw [if_pos hai] at h4
            obtain ⟨⟨row, hrow, -, -, hproc⟩, -, -⟩ := h4
            refine ⟨[row], hrow, ?_⟩
            intro r hr
            rw [List.mem_singleton] at hr
            rw [hr]
            exact hproc
          · rw [if_neg hai] at h4
            exact ⟨[], by rw [h4.1]; simp, by simp⟩
      · rw [process_pr_existing ai now pr w h (by simpa using hex)]
        exact ⟨rfl, rfl, [], by simp, by simp⟩
  exact ⟨hPR.1, hPR.2.1, hPR.2.2, hpipe, hins⟩

/-! ### Lemmas about the retry sweep -/

/-- The AI retry loop's trace additions contain no sweep log events. -/
theorem aiRetryGo_trace (ai : PRRecord → Option AIInsight) :
    ∀ (fuel : Nat) (rec : PRRecord) (attempt : Nat) (w : World),
      ∃ added : List Effect,
        (aiRetryGo ai rec attempt fuel w).2.trace = w.trace ++ added ∧
        ∀ k : String,
          Effect.logRetrying k ∉ added ∧ Effect.logGiveUp k ∉ added := by
  intro fuel
  induction fuel with
  | zero =>
    intro rec attempt w
    exact ⟨[], by simp [aiRetryGo], by simp⟩
  | succ n ih =>
    intro rec attempt w
    simp only [aiRetryGo]
    cases hai : ai (if attempt > 0 then _reduce_file_data_for_retry rec attempt else rec) with
    | some ins =>
      refine ⟨[.aiCall (if attempt > 0 then _reduce_file_data_for_retry rec attempt else rec).repo_id
          (if attempt > 0 then _reduce_file_data_for_retry rec attempt else rec).pr_number,
        .insertInsight (mkInsightRow
          (if attempt > 0 then _reduce_file_data_for_retry rec attempt else rec) ins)], ?_, ?_⟩
      · simp [insertInsightRow, addEffect]
      · intro k
        constructor <;> (intro hmem; simp at hmem)
    | none =>
      obtain ⟨added, htr, hlog⟩ := ih
        (if attempt > 0 then _reduce_file_data_for_retry rec attempt else rec) (attempt + 1)
        (addEffect (.aiCall (if attempt > 0 then _reduce_file_data_for_retry rec attempt else rec).repo_id
          (if attempt > 0 then _reduce_file_data_for_retry rec attempt else rec).pr_number) w)
      refine ⟨.aiCall (if attempt > 0 then _reduce_file_data_for_retry rec attempt else rec).repo_id
          (if attempt > 0 then _reduce_file_data_for_retry rec attempt else rec).pr_number :: added, ?_, ?_⟩
      · rw [htr]
        simp [addEffect]
      · intro k
        have := hlog k
        constructor <;>
          (intro hmem
           rw [List.mem_cons] at hmem
           rcases hmem with hmem | hmem
           · exact Effect.noConfusion hmem
           · first
             | exact this.1 hmem
             | exact this.2 hmem)

/-- One sweep step: its trace additions, which log events they can be,
what the cap branch does, and that the completed list only grows. -/
theorem sweepStep_spec (ai : PRRecord → Option AIInsight) (now : Nat)
    (acc : World × List String) (kv : String × RetryEntry) :
    ∃ sn : List Effect,
      (sweepStep ai now acc kv).1.trace = acc.1.trace ++ sn ∧
      (∀ k, Effect.logRetrying k ∈ sn → k = kv.1 ∧ kv.2.attempts < 5) ∧
      (∀ k, Effect.logGiveUp k ∈ sn → k = kv.1) ∧
      (5 ≤ kv.2.attempts →
        Effect.logGiveUp kv.1 ∈ sn ∧ (sweepStep ai now acc kv).2 = acc.2 ++ [kv.1]) ∧
      (∃ suffix, (sweepStep ai now acc kv).2 = acc.2 ++ suffix) := by
  unfold sweepStep
  dsimp only
  by_cases hcap : kv.2.attempts ≥ 5
  · rw [if_pos hcap]
    refine ⟨[.logGiveUp kv.1], by simp [addEffect], ?_, ?_, ?_, ⟨[kv.1], rfl⟩⟩
    · intro k hmem
      rw [List.mem_singleton] at hmem
      exact Effect.noConfusion hmem
    · intro k hmem
      rw [List.mem_singleton] at hmem
      cases hmem
      rfl
    · intro _
      exact ⟨List.mem_singleton.mpr rfl, rfl⟩
  · rw [if_neg hcap]
    by_cases hcool : now - kv.2.last_attempt < 300
    · rw [if_pos hcool]
      exact ⟨[], by simp, by simp, by simp, fun hc => absurd hc hcap, ⟨[], by simp⟩⟩
    · rw [if_neg hcool]
      by_cases h3 : kv.2.attempts ≥ 3
      · rw [if_pos h3]
        simp only [_generate_fallback_insight]
        refine ⟨[.logRetrying kv.1, .insertInsight (fallbackRow kv.2.pr_record)],
          by simp [insertInsightRow, addEffect], ?_, ?_, fun hc => absurd hc hcap,
          ⟨[kv.1], rfl⟩⟩
        · intro k hmem
          rcases List.mem_cons.mp hmem with hmem | hmem
          · cases hmem
            exact ⟨rfl, by omega⟩
          · rw [List.mem_singleton] at hmem
            exact Effect.noConfusion hmem
        · intro k hmem
          rcases List.mem_cons.mp hmem with hmem | hmem
          · exact Effect.noConfusion hmem
          · rw [List.mem_singleton] at hmem
            exact Effect.noConfusion hmem
      · rw [if_neg h3]
        rcases hAI : _generate_ai_insight_for_pr_with_retry ai 1 kv.2.pr_record
            (addEffect (.logRetrying kv.1) acc.1) with ⟨b, w2⟩
        obtain ⟨added, htr, hlog⟩ := aiRetryGo_trace ai 1 kv.2.pr_record 0
          (addEffect (.logRetrying kv.1) acc.1)
        unfold _generate_ai_insight_for_pr_with_retry at hAI
        rw [hAI] at htr
        simp only [addEffect] at htr
        have hsn : ∀ k, Effect.logRetrying k ∈ Effect.logRetrying kv.1 :: added →
            k = kv.1 ∧ kv.2.attempts < 5 := by
          intro k hmem
          rcases List.mem_cons.mp hmem with hmem | hmem
          · cases hmem
            exact ⟨rfl, by omega⟩
          · exact absurd hmem ((hlog k).1)
        have hsg : ∀ k, Effect.logGiveUp k ∈ Effect.logRetrying kv.1 :: added →
            k = kv.1 := by
          intro k hmem
          rcases List.mem_cons.mp hmem with hmem | hmem
          · exact Effect.noConfusion hmem
          · exact absurd hmem ((hlog k).2)
        cases b with
        | true =>
          refine ⟨Effect.logRetrying kv.1 :: added, ?_, hsn, hsg,
            fun hc => absurd hc hcap, ⟨[kv.1], ?_⟩⟩
          · dsimp only
            rw [if_pos rfl]
            dsimp only
            rw [htr, List.append_assoc, List.singleton_append]
          · dsimp only
            rw [if_pos rfl]
        | false =>
          refine ⟨Effect.logRetrying kv.1 :: added, ?_, hsn, hsg,
            fun hc => absurd hc hcap, ⟨[], ?_⟩⟩
          · dsimp only
            rw [if_neg (by simp)]
            dsimp only
            rw [htr, List.append_assoc, List.singleton_append]
          · dsimp only
            rw [if_neg (by simp)]
            simp

/-- The whole sweep fold: trace additions, provenance of the log
events, what happens to capped entries, and completed-list growth. -/
theorem sweepFold_spec (ai : PRRecord → Option AIInsight) (now : Nat) :
    ∀ (es : List (String × RetryEntry)) (w0 : World) (comp0 : List String),
      ∃ new : List Effect,
        (es.foldl (sweepStep ai now) (w0, comp0)).1.trace = w0.trace ++ new ∧
        (∀ k, Effect.logRetrying k ∈ new → ∃ e, (k, e) ∈ es ∧ e.attempts < 5) ∧
        (∀ k, Effect.logGiveUp k ∈ new → ∃ e, (k, e) ∈ es) ∧
        (∀ k e, (k, e) ∈ es → 5 ≤ e.attempts →
          Effect.logGiveUp k ∈ new ∧ k ∈ (es.foldl (sweepStep ai now) (w0, comp0)).2) ∧
        (∃ suffix, (es.foldl (sweepStep ai now) (w0, comp0)).2 = comp0 ++ suffix) := by
  intro es
  induction es with
  | nil =>
    intro w0 comp0
    exact ⟨[], by simp, by simp, by simp, by simp, ⟨[], by simp⟩⟩
  | cons kv rest ih =>
    intro w0 comp0
    rw [List.foldl_cons]
    obtain ⟨sn, hsn_tr, hsn_retry, hsn_give, hsn_cap, ⟨sfx1, hsfx1⟩⟩ :=
      sweepStep_spec ai now (w0, comp0) kv
    rcases hstep : sweepStep ai now (w0, comp0) kv with ⟨w1, c1⟩
    rw [hstep] at hsn_tr hsn_cap hsfx1
    dsimp only at hsn_tr hsn_cap hsfx1
    obtain ⟨newr, hr_tr, hr_retry, hr_give, hr_cap, ⟨sfx2, hsfx2⟩⟩ := ih w1 c1
    refine ⟨sn ++ newr, ?_, ?_, ?_, ?_, ⟨sfx1 ++ sfx2, ?_⟩⟩
    · rw [hr_tr, hsn_tr, List.append_assoc]
    · intro k hmem
      rcases List.mem_append.mp hmem with hmem | hmem
      · obtain ⟨hk, hlt⟩ := hsn_retry k hmem
        exact ⟨kv.2, by rw [hk]; exact List.mem_cons_self _ _, hlt⟩
      · obtain ⟨e, he, hlt⟩ := hr_retry k hmem
        exact ⟨e, List.mem_cons_of_mem _ he, hlt⟩
    · intro k hmem
      rcases List.mem_append.mp hmem with hmem | hmem
      · have hk := hsn_give k hmem
        exact ⟨kv.2, by rw [hk]; exact List.mem_cons_self _ _⟩
      · obtain ⟨e, he⟩ := hr_give k hmem
        exact ⟨e, List.mem_cons_of_mem _ he⟩
    · intro k e hmem hcap
      rcases List.mem_cons.mp hmem with hmem | hmem
      · have hkv1 : kv.1 = k := by rw [← hmem]
        have hkv2 : kv.2 = e := by rw [← hmem]
        obtain ⟨hin, hc1⟩ := hsn_cap (by rw [hkv2]; exact hcap)
        constructor
        · rw [← hkv1]
          exact List.mem_append.mpr (Or.inl hin)
        · have : k ∈ c1 := by
            rw [hc1, ← hkv1]
            simp
          rw [hsfx2]
          exact List.mem_append.mpr (Or.inl this)
      · obtain ⟨hin, hfin⟩ := hr_cap k e hmem hcap
        exact ⟨List.mem_append.mpr (Or.inr hin), hfin⟩
    · rw [hsfx2, hsfx1, List.append_assoc]

theorem nodup_key_unique {l : List (String × RetryEntry)}
    (hnodup : (l.map Prod.fst).Nodup) :
    ∀ {k : String} {a b : RetryEntry}, (k, a) ∈ l → (k, b) ∈ l → a = b := by
  induction l with
  | nil => intro k a b ha _; exact absurd ha (List.not_mem_nil _)
  | cons p rest ih =>
    intro k a b ha hb
    rw [List.map_cons, List.nodup_cons] at hnodup
    rcases List.mem_cons.mp ha with ha | ha <;> rcases List.mem_cons.mp hb with hb | hb
    · rw [← hb] at ha
      exact congrArg Prod.snd ha
    · exfalso
      apply hnodup.1
      rw [← ha]
      exact List.mem_map.mpr ⟨(k, b), hb, rfl⟩
    · exfalso
      apply hnodup.1
      rw [← hb]
      exact List.mem_map.mpr ⟨(k, a), ha, rfl⟩
    · exact ih hnodup.2 ha hb

theorem mem_lookup_ne_none {k : String} {e : RetryEntry}
    {m : List (String × RetryEntry)} (hmem : (k, e) ∈ m) :
    retryLookup k m ≠ none := by
  induction m with
  | nil => exact absurd hmem (List.not_mem_nil _)
  | cons p rest ih =>
    rcases List.mem_cons.mp hmem with hmem | hmem
    · unfold retryLookup
      rw [List.find?_cons]
      have : (decide (p.1 = k)) = true := by rw [← hmem]; simp
      rw [this]
      simp
    · unfold retryLookup
      rw [List.find?_cons]
      cases hb : (decide (p.1 = k)) with
      | true => simp
      | false => exact ih hmem

theorem retryLookup_filter_self (k : String) :
    ∀ m : List (String × RetryEntry),
      retryLookup k (m.filter (fun p => p.1 ≠ k)) = none := by
  intro m
  induction m with
  | nil => rfl
  | cons p rest ih =>
    rw [List.filter_cons]
    by_cases hp : p.1 = k
    · rw [if_neg (by simp [hp])]
      exact ih
    · rw [if_pos (by simp [hp])]
      unfold retryLookup
      rw [List.find?_cons]
      have : (decide (p.1 = k)) = false := by simp [hp]
      rw [this]
      exact ih

theorem retryLookup_none_filter {k : String} (q : String × RetryEntry → Bool) :
    ∀ m : List (String × RetryEntry),
      retryLookup k m = none → retryLookup k (m.filter q) = none := by
  intro m
  induction m with
  | nil => intro _; rfl
  | cons p rest ih =>
    intro h
    unfold retryLookup at h
    rw [List.find?_cons] at h
    cases hb : (decide (p.1 = k)) with
    | true => rw [hb] at h; simp at h
    | false =>
      rw [hb] at h
      rw [List.filter_cons]
      by_cases hq : q p = true
      · rw [if_pos hq]
        unfold retryLookup
        rw [List.find?_cons, hb]
        exact ih h
      · rw [if_neg hq]
        exact ih h

theorem lookup_none_foldl_filter {k : String} :
    ∀ (comp : List String) (m : List (String × RetryEntry)),
      (k ∈ comp ∨ retryLookup k m = none) →
      retryLookup k
        (comp.foldl (fun m k' => m.filter (fun p => p.1 ≠ k')) m) = none := by
  intro comp
  induction comp with
  | nil =>
    intro m h
    rcases h with h | h
    · exact absurd h (List.not_mem_nil _)
    · exact h
  | cons c rest ih =>
    intro m h
    rw [List.foldl_cons]
    rcases h with h | h
    · rcases List.mem_cons.mp h with h | h
      · apply ih
        right
        rw [h]
        exact retryLookup_filter_self c m
      · exact ih _ (Or.inl h)
    · apply ih
      right
      exact retryLookup_none_filter _ m h

/-- C9: every RetryState entry whose attempt count has reached the cap
of 5 is evicted by the sweep without being retried: the sweep logs the
give-up for its key, logs no retry for it, removes the key from the
map (so it can never be retried again), and any sweep over a map that
does not contain a key emits no retry and no give-up log for it. -/
theorem C9_retry_cap (ai : PRRecord → Option AIInsight) (now : Nat) (w : World)
    (k : String) (e : RetryEntry)
    (hmem : (k, e) ∈ w.failed_retry) (hcap : 5 ≤ e.attempts)
    (hnodup : (w.failed_retry.map Prod.fst).Nodup) :
    retryLookup k (process_failed_insight_retries ai now w).failed_retry = none ∧
    (∃ new : List Effect,
      (process_failed_insight_retries ai now w).trace = w.trace ++ new ∧
      Effect.logGiveUp k ∈ new ∧ Effect.logRetrying k ∉ new) ∧
    (∀ (ai2 : PRRecord → Option AIInsight) (now2 : Nat) (w2 : World),
      retryLookup k w2.failed_retry = none →
      ∃ new2 : List Effect,
        (process_failed_insight_retries ai2 now2 w2).trace = w2.trace ++ new2 ∧
        Effect.logRetrying k ∉ new2 ∧ Effect.logGiveUp k ∉ new2) := by
  have hne : w.failed_retry.isEmpty = false :=
    isEmpty_false_of_ne_nil (List.ne_nil_of_mem hmem)
  obtain ⟨new, htr, hretry, hgive, hcapf, ⟨sfx, hsfx⟩⟩ :=
    sweepFold_spec ai now w.failed_retry w []
  obtain ⟨hginew, hkcomp⟩ := hcapf k e hmem hcap
  refine ⟨?_, ⟨new, ?_, hginew, ?_⟩, ?_⟩
  · unfold process_failed_insight_retries
    rw [hne]
    dsimp only
    rcases hfold : w.failed_retry.foldl (sweepStep ai now) (w, []) with ⟨w1, comp⟩
    rw [hfold] at hkcomp
    exact lookup_none_foldl_filter comp w1.failed_retry (Or.inl hkcomp)
  · unfold process_failed_insight_retries
    rw [hne]
    dsimp only
    rcases hfold : w.failed_retry.foldl (sweepStep ai now) (w, []) with ⟨w1, comp⟩
    rw [hfold] at htr
    exact htr
  · intro hmem2
    obtain ⟨e2, he2, hlt⟩ := hretry k hmem2
    have heq := nodup_key_unique hnodup hmem he2
    rw [heq] at hcap
    omega
  · intro ai2 now2 w2 hnone
    unfold process_failed_insight_retries
    by_cases hne2 : w2.failed_retry.isEmpty = true
    · rw [hne2]
      simp only [if_true]
      exact ⟨[], by simp, by simp, by simp⟩
    · rw [(by simpa using hne2 : w2.failed_retry.isEmpty = false)]
      dsimp only
      obtain ⟨new2, htr2, hretry2, hgive2, -, -⟩ :=
        sweepFold_spec ai2 now2 w2.failed_retry w2 []
      rcases hfold : w2.failed_retry.foldl (sweepStep ai2 now2) (w2, []) with ⟨w1, comp⟩
      rw [hfold] at htr2
      refine ⟨new2, htr2, ?_, ?_⟩
      · intro hmem3
        obtain ⟨e2, he2, -⟩ := hretry2 k hmem3
        exact (mem_lookup_ne_none he2) hnone
      · intro hmem3
        obtain ⟨e2, he2⟩ := hgive2 k hmem3
        exact (mem_lookup_ne_none he2) hnone

/-- Witness for C9: a retry map holding one entry at the cap of 5 —
after the sweep the key is gone from the map. -/
theorem C9_retry_cap_witness :
    retryLookup "r1:9"
      (process_failed_insight_retries (fun _ => none) 1000
        { emptyWorld with failed_retry :=
            [("r1:9",
              { attempts := 5,
                pr_record :=
                  { id := "pr-9", repo_id := "r1", pr_number := 9, title := "t", author := "a",
                    author_avatar := "av", commit_sha := "c", state := "open", merged := false,
                    is_draft := false, additions := 1, deletions := 1, changed_files := 1,
                    files_changed := .flist [], history := [], updated_at := 3 },
                last_attempt := 0 })] }).failed_retry = none :=
  (C9_retry_cap (fun _ => none) 1000
    { emptyWorld with failed_retry :=
        [("r1:9",
          { attempts := 5,
            pr_record :=
              { id := "pr-9", repo_id := "r1", pr_number := 9, title := "t", author := "a",
                author_avatar := "av", commit_sha := "c", state := "open", merged := false,
                is_draft := false, additions := 1, deletions := 1, changed_files := 1,
                files_changed := .flist [], history := [], updated_at := 3 },
            last_attempt := 0 })] }
    "r1:9"
    { attempts := 5,
      pr_record :=
        { id := "pr-9", repo_id := "r1", pr_number := 9, title := "t", author := "a",
          author_avatar := "av", commit_sha := "c", state := "open", merged := false,
          is_draft := false, additions := 1, deletions := 1, changed_files := 1,
          files_changed := .flist [], history := [], updated_at := 3 },
      last_attempt := 0 }
    (by decide) (by decide) (by decide)).1

end FlowLens
